import Mathlib

/-!
Verification of the `dirty-validators` composable validation engine.

The Python sources (`dirty_validators/ctx.py`, `complex.py`, `legacy.py`,
`basic.py`) are shallowly embedded: Python values are `PyVal`, the mutable
`Context` object becomes a persistent tree threaded through the evaluator,
and validator classes become a deep embedding `Validator` with an
executable evaluator.  Python exceptions are modelled explicitly where a
claim depends on them (`PyErr`, `Except`).
-/

namespace DirtyValidators

/-- Python values occurring in the engine: `None`, booleans, integers,
strings, lists and (string-keyed) dicts. -/
inductive PyVal where
  | none : PyVal
  | bool (b : Bool) : PyVal
  | int (n : Int) : PyVal
  | str (s : String) : PyVal
  | list (xs : List PyVal) : PyVal
  | dict (kvs : List (String × PyVal)) : PyVal

mutual

def PyVal.hasDecEq : (a b : PyVal) → Decidable (a = b)
  | .none, .none => isTrue rfl
  | .bool a, .bool b =>
    match decEq a b with
    | isTrue h => isTrue (h ▸ rfl)
    | isFalse h => isFalse (by simp only [PyVal.bool.injEq]; exact h)
  | .int a, .int b =>
    match decEq a b with
    | isTrue h => isTrue (h ▸ rfl)
    | isFalse h => isFalse (by simp only [PyVal.int.injEq]; exact h)
  | .str a, .str b =>
    match decEq a b with
    | isTrue h => isTrue (h ▸ rfl)
    | isFalse h => isFalse (by simp only [PyVal.str.injEq]; exact h)
  | .list xs, .list ys =>
    match PyVal.hasDecEqList xs ys with
    | isTrue h => isTrue (h ▸ rfl)
    | isFalse h => isFalse (by simp only [PyVal.list.injEq]; exact h)
  | .dict xs, .dict ys =>
    match PyVal.hasDecEqDict xs ys with
    | isTrue h => isTrue (h ▸ rfl)
    | isFalse h => isFalse (by simp only [PyVal.dict.injEq]; exact h)
  | .none, .bool _ | .none, .int _ | .none, .str _ | .none, .list _
  | .none, .dict _ => isFalse (by intro h; exact PyVal.noConfusion h)
  | .bool _, .none | .bool _, .int _ | .bool _, .str _ | .bool _, .list _
  | .bool _, .dict _ => isFalse (by intro h; exact PyVal.noConfusion h)
  | .int _, .none | .int _, .bool _ | .int _, .str _ | .int _, .list _
  | .int _, .dict _ => isFalse (by intro h; exact PyVal.noConfusion h)
  | .str _, .none | .str _, .bool _ | .str _, .int _ | .str _, .list _
  | .str _, .dict _ => isFalse (by intro h; exact PyVal.noConfusion h)
  | .list _, .none | .list _, .bool _ | .list _, .int _ | .list _, .str _
  | .list _, .dict _ => isFalse (by intro h; exact PyVal.noConfusion h)
  | .dict _, .none | .dict _, .bool _ | .dict _, .int _ | .dict _, .str _
  | .dict _, .list _ => isFalse (by intro h; exact PyVal.noConfusion h)

def PyVal.hasDecEqList : (xs ys : List PyVal) → Decidable (xs = ys)
  | [], [] => isTrue rfl
  | _ :: _, [] => isFalse (by intro h; exact List.noConfusion h)
  | [], _ :: _ => isFalse (by intro h; exact List.noConfusion h)
  | x :: xs, y :: ys =>
    match PyVal.hasDecEq x y with
    | isFalse h => isFalse (by simp only [List.cons.injEq, not_and]; intro hxy; exact absurd hxy h)
    | isTrue hxy =>
      match PyVal.hasDecEqList xs ys with
      | isTrue hrest => isTrue (hxy ▸ hrest ▸ rfl)
      | isFalse hrest => isFalse (fun h => List.noConfusion h (fun _ ht => absurd ht hrest))

def PyVal.hasDecEqDict : (xs ys : List (String × PyVal)) → Decidable (xs = ys)
  | [], [] => isTrue rfl
  | _ :: _, [] => isFalse (by intro h; exact List.noConfusion h)
  | [], _ :: _ => isFalse (by intro h; exact List.noConfusion h)
  | (k, v) :: xs, (k', v') :: ys =>
    match decEq k k' with
    | isFalse h =>
      isFalse (by
        simp only [List.cons.injEq, Prod.mk.injEq]
        intro hcons; exact absurd hcons.1.1 h)
    | isTrue hk =>
      match PyVal.hasDecEq v v' with
      | isFalse h =>
        isFalse (by
          simp only [List.cons.injEq, Prod.mk.injEq]
          intro hcons; exact absurd hcons.1.2 h)
      | isTrue hv =>
        match PyVal.hasDecEqDict xs ys with
        | isTrue hrest => isTrue (hk ▸ hv ▸ hrest ▸ rfl)
        | isFalse hrest => isFalse (fun h => List.noConfusion h (fun _ ht => absurd ht hrest))

end

instance : DecidableEq PyVal := PyVal.hasDecEq

/-- Python `str()` of a value, as used by template substitution. -/
def pyStr : PyVal → String
  | .none => "None"
  | .bool true => "True"
  | .bool false => "False"
  | .int n => toString n
  | .str s => s
  | .list _ => "[...]"
  | .dict _ => "[...]"

/-- Python dict assignment semantics for an association list: a later
binding for an existing key replaces the value in place, a new key is
appended. -/
def assocSet {κ α : Type} [DecidableEq κ] (kvs : List (κ × α)) (k : κ)
    (v : α) : List (κ × α) :=
  match kvs with
  | [] => [(k, v)]
  | (k', v') :: rest =>
    if k' = k then (k', v) :: rest else (k', v') :: assocSet rest k v

/-- Dict lookup (first binding wins; `assocSet` keeps keys unique). -/
def assocGet {κ α : Type} [DecidableEq κ] (kvs : List (κ × α)) (k : κ) :
    Option α :=
  match kvs with
  | [] => Option.none
  | (k', v') :: rest => if k' = k then some v' else assocGet rest k

/-- `d.update(other)` on association lists with Python dict semantics. -/
def dictUpdate (kvs other : List (String × PyVal)) : List (String × PyVal) :=
  other.foldl (fun acc p => assocSet acc p.1 p.2) kvs

/-- Dict assignment specialised to Python-value dicts. -/
def dictSet (kvs : List (String × PyVal)) (k : String) (v : PyVal) :
    List (String × PyVal) :=
  assocSet kvs k v

/-- Dict lookup specialised to Python-value dicts. -/
def dictGet (kvs : List (String × PyVal)) (k : String) : Option PyVal :=
  assocGet kvs k

/-- Identifier characters accepted by `string.Template` placeholders. -/
def isIdentChar (c : Char) : Bool :=
  c.isAlpha || c.isDigit || c = '_'

/-- Longest identifier run at the head of the character list. -/
def takeIdent : List Char → List Char × List Char
  | [] => ([], [])
  | c :: rest =>
    if isIdentChar c then
      let (iden, rem) := takeIdent rest
      (c :: iden, rem)
    else ([], c :: rest)

theorem takeIdent_sublen (cs : List Char) : (takeIdent cs).2.length ≤ cs.length := by
  induction cs with
  | nil => simp [takeIdent]
  | cons c rest ih =>
    simp only [takeIdent]
    by_cases h : isIdentChar c = true
    · simp only [h, if_pos]
      exact Nat.le_trans ih (Nat.le_succ _)
    · simp [h]

/-- Core loop of `string.Template.safe_substitute`: replace `$name`
placeholders from the mapping, leaving unknown placeholders untouched
(`$$` renders a literal dollar).  Placeholder keys are Python
identifiers, so the identifier-run scan matches the `Template` regex on
every key the engine produces. -/
def safeSubstCharsGo (vals : List (String × PyVal)) :
    Nat → List Char → List Char
  | 0, cs => cs
  | Nat.succ fuel, cs =>
    match cs with
    | [] => []
    | ['$'] => ['$']
    | '$' :: c :: rest =>
      if c = '$' then '$' :: safeSubstCharsGo vals fuel rest
      else if isIdentChar c then
        let iden := (takeIdent rest).1
        let rem := (takeIdent rest).2
        match dictGet vals (String.mk (c :: iden)) with
        | some v => (pyStr v).toList ++ safeSubstCharsGo vals fuel rem
        | Option.none => '$' :: c :: iden ++ safeSubstCharsGo vals fuel rem
      else '$' :: c :: safeSubstCharsGo vals fuel rest
    | c :: rest => c :: safeSubstCharsGo vals fuel rest

/-- Run the substitution loop; every step consumes at least one
character, so a fuel equal to the input length always completes the
scan (the fuel-0 fallback is unreachable). -/
def safeSubstChars (vals : List (String × PyVal)) (cs : List Char) :
    List Char :=
  safeSubstCharsGo vals cs.length cs

/-- `Template(tpl).safe_substitute(vals)` (unbraced placeholders). -/
def safeSubstitute (tpl : String) (vals : List (String × PyVal)) : String :=
  String.mk (safeSubstChars vals tpl.toList)

/-- `ValidationErrorMessage` from `ctx.py`: an error code, a message
template, the captured substitution values and an optional field path. -/
structure ValidationErrorMessage where
  code : String
  msg_tpl : String
  ctx_values : List (String × PyVal)
  field_path : Option String
  deriving DecidableEq

namespace ValidationErrorMessage

/-- Rendered message (`msg` property): template substitution over the
captured context values. -/
def msg (e : ValidationErrorMessage) : String :=
  safeSubstitute e.msg_tpl e.ctx_values

/-- `copy_as_child` from `ctx.py`: build a copy whose `field_path`
prepends the given segment with a dotted join. -/
def copy_as_child (e : ValidationErrorMessage) (field_path : Option String) :
    ValidationErrorMessage :=
  let path :=
    match field_path with
    | Option.none => e.field_path
    | some seg =>
      match e.field_path with
      | Option.none => some seg
      | some p => some (seg ++ "." ++ p)
  { code := e.code, msg_tpl := e.msg_tpl, ctx_values := e.ctx_values,
    field_path := path }

end ValidationErrorMessage

/-- `Context` from `ctx.py`: a parent-linked node holding the value under
test, the step flag, redaction policy, static message values and the
node-owned error list.  The stored `is_step` field holds the value
computed by `__init__` (`is_step or parent is None`); every context the
engine builds goes through `Ctx.make` below. -/
inductive Ctx where
  | mk (value : PyVal) (parent : Option Ctx) (is_step : Bool)
       (hide_value : Bool) (hidden_value : String)
       (message_values : List (String × PyVal))
       (error_messages : List ValidationErrorMessage)

namespace Ctx

def value : Ctx → PyVal
  | .mk v _ _ _ _ _ _ => v

def parent : Ctx → Option Ctx
  | .mk _ p _ _ _ _ _ => p

def is_step : Ctx → Bool
  | .mk _ _ s _ _ _ _ => s

def hide_value : Ctx → Bool
  | .mk _ _ _ h _ _ _ => h

def hidden_value : Ctx → String
  | .mk _ _ _ _ h _ _ => h

def message_values : Ctx → List (String × PyVal)
  | .mk _ _ _ _ _ m _ => m

def error_messages : Ctx → List ValidationErrorMessage
  | .mk _ _ _ _ _ _ e => e

/-- `Context.__init__`: note `_is_step = is_step or parent is None`. -/
def make (value : PyVal) (parent : Option Ctx) (is_step : Bool)
    (hide_value : Bool := false) (hidden_value : String := "***hidden***")
    (message_values : List (String × PyVal) := []) : Ctx :=
  .mk value parent (is_step || parent.isNone) hide_value hidden_value
    message_values []

/-- Depth of the parent chain (for termination of path navigation). -/
def depth : Ctx → Nat
  | .mk _ Option.none _ _ _ _ _ => 0
  | .mk _ (some p) _ _ _ _ _ => p.depth + 1

theorem depth_parent (c p : Ctx) (h : c.parent = some p) :
    p.depth < c.depth := by
  cases c with
  | mk v par s hv hdv mv em =>
    cases par with
    | none => simp [parent] at h
    | some q =>
      simp [parent] at h
      subst h
      simp [depth]

/-- `parent_step` property: nearest ancestor marked as a step. -/
def parent_step (c : Ctx) : Option Ctx :=
  match h : c.parent with
  | Option.none => Option.none
  | some p => if p.is_step then some p else p.parent_step
termination_by c.depth
decreasing_by exact depth_parent c p h

theorem depth_parent_step (c p : Ctx) (h : c.parent_step = some p) :
    p.depth < c.depth := by
  induction c using Ctx.parent_step.induct with
  | case1 c hp =>
    rw [parent_step, hp] at h
    exact absurd h (by simp)
  | case2 c q hp hstep =>
    rw [parent_step, hp] at h
    simp [hstep] at h
    subst h
    exact depth_parent c q hp
  | case3 c q hp hstep ih =>
    rw [parent_step, hp] at h
    simp [hstep] at h
    exact Nat.lt_trans (ih h) (depth_parent c q hp)

/-- `Context.__bool__`: truthy iff the node-owned error list is empty. -/
def toBool (c : Ctx) : Bool :=
  c.error_messages.length = 0

/-- `add_error`: append a `ValidationErrorMessage` to the own list. -/
def add_error (c : Ctx) (e : ValidationErrorMessage) : Ctx :=
  match c with
  | .mk v p s hv hdv mv em => .mk v p s hv hdv mv (em ++ [e])

/-- The `ValidationErrorMessage` built by `Context.error`: placeholders
from the node's message values, the extra keyword values and the
(possibly redacted) node value; no field path. -/
def errorRecord (c : Ctx) (error_code : String)
    (error_message_tpl : String)
    (kwargs : List (String × PyVal) := []) : ValidationErrorMessage :=
  { code := error_code,
    msg_tpl := error_message_tpl,
    ctx_values := dictSet (dictUpdate (dictUpdate [] c.message_values)
      kwargs) "value"
      (if c.hide_value then .str c.hidden_value else c.value),
    field_path := Option.none }

/-- `Context.error`: append the freshly built error to the own list. -/
def error (c : Ctx) (error_code : String) (error_message_tpl : String)
    (kwargs : List (String × PyVal) := []) : Ctx :=
  c.add_error (c.errorRecord error_code error_message_tpl kwargs)

/-- `import_errors`: append a `copy_as_child` copy of every error of the
other context, prefixing the optional path segment. -/
def import_errors (c : Ctx) (other : Ctx)
    (field_path : Option String := Option.none) : Ctx :=
  other.error_messages.foldl
    (fun acc e => acc.add_error (e.copy_as_child field_path)) c

/-- `build_child`: child context inheriting redaction policy and message
values (overridden by the extra ones). -/
def build_child (c : Ctx) (value : PyVal) (is_step : Bool := false)
    (message_values : List (String × PyVal) := []) : Ctx :=
  make value (some c) is_step c.hide_value c.hidden_value
    (dictUpdate c.message_values message_values)

end Ctx

/-! ## Field-path resolution (`get_field_value_from_context`)

Python exceptions relevant to the resolver are modelled explicitly so the
`try/except (IndexError, AttributeError, KeyError, TypeError)` structure
of the source is visible in the embedding. -/

inductive PyErr where
  | indexError
  | keyError
  | attributeError
  | typeError
  | valueError
  deriving DecidableEq

/-- The exception tuple caught by `get_field_value_from_context`. -/
def isCaughtByGetField : PyErr → Bool
  | .indexError => true
  | .attributeError => true
  | .keyError => true
  | .typeError => true
  | .valueError => false

/-- The `Numeric_Type=Decimal` codepoint blocks — the digit characters
`int` converts (Python `str.isdecimal`).  Each entry is the codepoint of
a script's zero; a block spans the ten consecutive codepoints of that
script's decimal digits. -/
def decimalZeroBlocks : List Nat :=
  [0x30, 0x660, 0x6F0, 0x7C0, 0x966, 0x9E6, 0xA66, 0xAE6, 0xB66, 0xBE6,
   0xC66, 0xCE6, 0xD66, 0xDE6, 0xE50, 0xED0, 0xF20, 0x1040, 0x1090,
   0x17E0, 0x1810, 0x1946, 0x19D0, 0x1A80, 0x1A90, 0x1B50, 0x1BB0,
   0x1C40, 0x1C50, 0xA620, 0xA8D0, 0xA900, 0xA9D0, 0xA9F0, 0xAA50,
   0xABF0, 0xFF10]

/-- The decimal value of a character, `Option.none` for characters with
no decimal value. -/
def charDecimalVal (c : Char) : Option Nat :=
  match decimalZeroBlocks.find?
      (fun z => z ≤ c.toNat && c.toNat < z + 10) with
  | some z => some (c.toNat - z)
  | Option.none => Option.none

/-- Codepoints with `Numeric_Type=Digit` but no decimal value:
`str.isdigit` accepts them while `int` raises `ValueError` on them —
superscript and subscript digits, Ethiopic digits, circled,
parenthesized, full-stop, double-circled, negative-circled and dingbat
digits. -/
def digitOnlyCodepoints : List Nat :=
  [0xB2, 0xB3, 0xB9, 0x2070]
    ++ (List.range 6).map (fun i => 0x2074 + i)
    ++ (List.range 10).map (fun i => 0x2080 + i)
    ++ (List.range 9).map (fun i => 0x1369 + i)
    ++ (List.range 9).map (fun i => 0x2460 + i)
    ++ (List.range 9).map (fun i => 0x2474 + i)
    ++ (List.range 9).map (fun i => 0x2488 + i)
    ++ [0x24EA]
    ++ (List.range 9).map (fun i => 0x24F5 + i)
    ++ [0x24FF]
    ++ (List.range 9).map (fun i => 0x2776 + i)
    ++ (List.range 9).map (fun i => 0x2780 + i)
    ++ (List.range 9).map (fun i => 0x278A + i)

/-- Python `str.isdigit` on one character: the decimal digits together
with the digit-class characters above. -/
def pyCharIsDigit (c : Char) : Bool :=
  (charDecimalVal c).isSome || digitOnlyCodepoints.contains c.toNat

/-- Python `str.isdigit`: non-empty and every character digit-class. -/
def pyIsDigit (s : String) : Bool :=
  s.length != 0 && s.toList.all pyCharIsDigit

/-- `int(field)` character by character: converts while every character
carries a decimal value, raises `ValueError` at the first digit-class
character `isdigit` admits but `int` rejects. -/
def digitsToNatE (acc : Nat) : List Char → Except PyErr Nat
  | [] => .ok acc
  | c :: rest =>
    match charDecimalVal c with
    | some d => digitsToNatE (acc * 10 + d) rest
    | Option.none => .error PyErr.valueError

/-- Python `int(s)` at the resolver's call sites (the argument has
already passed `isdigit`, so sign, space and underscore handling cannot
be reached). -/
def pyIntOfDigits (s : String) : Except PyErr Nat :=
  digitsToNatE 0 s.toList

/-- Python `s.split('.')` piece collection over characters (empty
pieces kept). -/
def splitDotsAux (acc : List Char) : List Char → List (List Char)
  | [] => [acc.reverse]
  | c :: rest =>
    if c = '.' then acc.reverse :: splitDotsAux [] rest
    else splitDotsAux (c :: acc) rest

/-- Re-join pieces with dots (for the `maxsplit=1` remainder). -/
def joinDots : List (List Char) → List Char
  | [] => []
  | [x] => x
  | x :: rest => x ++ '.' :: joinDots rest

/-- Python `s.split('.')`. -/
def splitOnDots (s : String) : List String :=
  (splitDotsAux [] s.toList).map String.mk

/-- Python `s.startswith(p)`. -/
def strStartsWith (s p : String) : Bool :=
  List.isPrefixOf p.toList s.toList

/-- `s.split('.', 1)`: first segment and the joined remainder (the
remainder is `""` when the string holds no dot, mirroring the
`except ValueError` unpacking fallback in the source). -/
def splitFirstDot (s : String) : String × String :=
  match splitDotsAux [] s.toList with
  | [] => (s, "")
  | [x] => (String.mk x, "")
  | x :: rest => (String.mk x, String.mk (joinDots rest))

/-- The `while len(field_path)` traversal inside the `try` block:
sequence-like values (lists and strings) convert digit segments with
`int` — whose `ValueError` on a digit-class, non-decimal segment passes
`isdigit` and escapes — and index by the result; mappings look keys up
(falling back to an integer key for digit segments, which no
string-keyed dict holds); anything else is an attribute access, which
none of the embedded data values support. -/
def resolveFields : PyVal → List String → Except PyErr PyVal
  | v, [] => .ok v
  | v, field :: rest =>
    match v with
    | .list xs =>
      if pyIsDigit field then
        match pyIntOfDigits field with
        | .ok n =>
          match xs.get? n with
          | some x => resolveFields x rest
          | Option.none => .error .indexError
        | .error e => .error e
      else .error .typeError
    | .str s =>
      if pyIsDigit field then
        match pyIntOfDigits field with
        | .ok n =>
          match s.toList.get? n with
          | some c => resolveFields (.str (String.mk [c])) rest
          | Option.none => .error .indexError
        | .error e => .error e
      else .error .typeError
    | .dict kvs =>
      match dictGet kvs field with
      | some x => resolveFields x rest
      | Option.none =>
        if pyIsDigit field then
          match pyIntOfDigits field with
          | .ok _ => .error .keyError
          | .error e => .error e
        else resolveFields PyVal.none rest
    | _ => .error .attributeError

/-- The `try` block of `get_field_value_from_context`: `None` values
resolve to `None` immediately, otherwise the segment list
`[field_path, *next_field_path.split('.')]` is traversed. -/
def getFieldTry (value : PyVal) (head : String) (next_path : String) :
    Except PyErr PyVal :=
  match value with
  | PyVal.none => .ok PyVal.none
  | v =>
    resolveFields v
      (head :: (if next_path = "" then [] else splitOnDots next_path))

mutual

/-- `get_field_value_from_context` with explicit exception outcomes:
non-step contexts delegate to the nearest step ancestor, a leading
`<root>.` walks to the outermost step context, and a `<context>` head
consumes one step ancestor.  The value traversal runs inside
`try/except (IndexError, AttributeError, KeyError, TypeError)`. -/
def getFieldValueFromContextE (field_path : String) (ctx : Ctx) :
    Except PyErr PyVal :=
  if ctx.is_step then
    if strStartsWith field_path "<root>." then
      match hp : ctx.parent_step with
      | some p => getFieldValueFromContextE field_path p
      | Option.none => getFieldAtStep (splitFirstDot field_path).2 ctx
    else getFieldAtStep field_path ctx
  else
    match hp : ctx.parent_step with
    | some p => getFieldValueFromContextE field_path p
    | Option.none => .ok PyVal.none
termination_by (ctx.depth, 1)
decreasing_by
  · exact Prod.Lex.left _ _ (Ctx.depth_parent_step ctx p hp)
  · exact Prod.Lex.right _ (Nat.zero_lt_one)
  · exact Prod.Lex.right _ (Nat.zero_lt_one)
  · exact Prod.Lex.left _ _ (Ctx.depth_parent_step ctx p hp)

/-- The part of `get_field_value_from_context` after the `<root>`
handling, at a step context. -/
def getFieldAtStep (field_path : String) (ctx : Ctx) : Except PyErr PyVal :=
  let head := (splitFirstDot field_path).1
  let next := (splitFirstDot field_path).2
  if head = "<context>" then
    match hp : ctx.parent_step with
    | some p => getFieldValueFromContextE next p
    | Option.none => .ok PyVal.none
  else
    match getFieldTry ctx.value head next with
    | .ok v => .ok v
    | .error e => if isCaughtByGetField e then .ok PyVal.none else .error e
termination_by (ctx.depth, 0)
decreasing_by
  · exact Prod.Lex.left _ _ (Ctx.depth_parent_step ctx p hp)

end

/-- `get_field_value_from_context` as used by the engine
(`Context.get_field_value`).  The error branch is reachable only by the
uncaught `ValueError` and is collapsed to `None` here; the
exception-level facts are stated about `getFieldValueFromContextE`,
which keeps the escape visible. -/
def get_field_value_from_context (field_path : String) (ctx : Ctx) : PyVal :=
  match getFieldValueFromContextE field_path ctx with
  | .ok v => v
  | .error _ => PyVal.none

/-! ## Validators

Deep embedding of the validator classes the claims quantify over, with
default error-code maps and error messages (the class-level dicts of the
source).  `basic.py` in this revision still carries the flat
 dict-of-messages entry points, while `complex.py`, the legacy shim and
the whole test suite consume the context-model entry points
(`is_valid(value, parent_ctx) -> Context`, `error(code, value, ctx=ctx)`,
`_build_context`); those context-model entry points are modelled from the
spec (§2 control flow, §4.1) and from their synchronous mirror
`AsyncBaseValidator.is_valid` in `async_complex.py`. -/

inductive Validator where
  | base : Validator
  | length (vmin vmax : Int) : Validator
  | chain (stop_on_fail : Bool) (validators : List Validator) : Validator
  | someOf (validators : List Validator) : Validator
  | allItems (stop_on_fail : Bool) (validator : Validator) : Validator
  | someItems (vmin vmax : Int) (stop_on_fail : Bool)
      (validator : Validator) : Validator
  | ifField (field_name : String) (run_if_none add_check_info : Bool)
      (field_validator : Option Validator) (validator : Validator) : Validator

namespace Validator

/-- `message_values` accumulated by the constructors
(`Length.__init__`, `SomeItemsMixin.__init__`, `IfFieldMixin.__init__`). -/
def messageValues : Validator → List (String × PyVal)
  | .length vmin vmax => [("min", .int vmin), ("max", .int vmax)]
  | .someItems vmin vmax _ _ => [("min", .int vmin), ("max", .int vmax)]
  | .ifField fname _ _ _ _ => [("field_name", .str fname)]
  | _ => []

/-- Validators deriving from `ComplexValidatorMixin` build step
contexts (`ListValidator` subclasses); the rest are pass-through. -/
def isStepValidator : Validator → Bool
  | .allItems _ _ => true
  | .someItems _ _ _ _ => true
  | _ => false

/-- Modelled from the spec: `BaseValidator._build_context` of the
context-model generation (missing from `basic.py` in this revision;
`ComplexValidatorMixin._build_context` in `complex.py` is its step
variant). -/
def buildContext (v : Validator) (value : PyVal) (parent_ctx : Option Ctx) :
    Ctx :=
  Ctx.make value parent_ctx (isStepValidator v) false "**hidden**"
    (messageValues v)

end Validator

/-- Python `len()`; `Option.none` models the `TypeError` raised by
values without a length. -/
def pyLen : PyVal → Option Nat
  | .str s => some s.length
  | .list xs => some xs.length
  | .dict kvs => some kvs.length
  | _ => Option.none

/-- `Length._internal_is_valid`: too short before too long, `TypeError`
mapped to `notLength`. -/
def lengthInternal (vmin vmax : Int) (value : PyVal) (ctx : Ctx) : Ctx :=
  match pyLen value with
  | Option.none => ctx.error "notLength" "'$value' has no length"
  | some n =>
    if (n : Int) < vmin then
      ctx.error "tooShort" "'$value' is less than $min unit length"
    else if vmax ≠ -1 ∧ (n : Int) > vmax then
      ctx.error "tooLong" "'$value' is more than $max unit length"
    else ctx

/-- `BaseValueIterableMixin._iter_values`: lists enumerate with their
stringified position, dicts iterate items.  (For any other value the
source returns the value itself and the caller's tuple unpacking raises;
no claim exercises that path.) -/
def iterValues : PyVal → List (String × PyVal)
  | .list xs => xs.enum.map (fun p => (toString p.1, p.2))
  | .dict kvs => kvs
  | _ => []

/-- Evaluation trace: one entry per `is_valid` invocation, recording the
validator and the value it was invoked on.  This is the observation used
to state "child X never executes". -/
abbrev Trace := List (Validator × PyVal)

mutual

/-- Modelled from the spec: `BaseValidator.is_valid` of the
context-model generation (missing from `basic.py` in this revision) —
build a context from the optional parent, run `_internal_is_valid`
against it, return it.  Mirrors `AsyncBaseValidator.is_valid`. -/
def isValid (v : Validator) (value : PyVal) (parent_ctx : Option Ctx) :
    Ctx × Trace :=
  let ctx := v.buildContext value parent_ctx
  let res := internalIsValid v value ctx
  (res.1, (v, value) :: res.2)
termination_by (sizeOf v, 0, 1)

/-- `_internal_is_valid` dispatch over the embedded validator kinds. -/
def internalIsValid (v : Validator) (value : PyVal) (ctx : Ctx) :
    Ctx × Trace :=
  match v with
  | .base => (ctx, [])
  | .length vmin vmax => (lengthInternal vmin vmax value ctx, [])
  | .chain stop vs => chainLoop stop vs value ctx
  | .someOf vs => someLoop vs value ctx []
  | .allItems stop child => allItemsLoop stop child (iterValues value) ctx
  | .someItems vmin vmax stop child =>
    someItemsInternal vmin vmax stop child value ctx
  | .ifField fname run_if_none add_check_info fvOpt target =>
    let field_value := get_field_value_from_context fname ctx
    if !run_if_none && field_value = PyVal.none then (ctx, [])
    else
      match fvOpt with
      | some fv =>
        let fres := isValid fv field_value (some ctx)
        if fres.1.toBool = false then (ctx, fres.2)
        else
          let tres := ifFieldRunTarget add_check_info field_value target
            value ctx
          (tres.1, fres.2 ++ tres.2)
      | Option.none => ifFieldRunTarget add_check_info field_value target
          value ctx
termination_by (sizeOf v, 0, 0)

/-- Tail of `IfField._internal_is_valid`: run the target validator on
the original value; on failure import its errors and optionally append
the `needsValidate` info error. -/
def ifFieldRunTarget (add_check_info : Bool) (field_value : PyVal)
    (target : Validator) (value : PyVal) (ctx : Ctx) : Ctx × Trace :=
  let cres := isValid target value (some ctx)
  if cres.1.toBool = false then
    let ctx1 := ctx.import_errors cres.1
    let ctx2 :=
      if add_check_info then
        ctx1.error "needsValidate"
          "Some validate error due to field '$field_name' has value '$field_value'."
          [("field_value", field_value)]
      else ctx1
    (ctx2, cres.2)
  else (ctx, cres.2)
termination_by (sizeOf target, 1, 0)

/-- `Chain._internal_is_valid`: same value, shared context, import each
child's errors, halt on first failure when `stop_on_fail`. -/
def chainLoop (stop : Bool) (vs : List Validator) (value : PyVal)
    (ctx : Ctx) : Ctx × Trace :=
  match vs with
  | [] => (ctx, [])
  | v :: rest =>
    let cres := isValid v value (some ctx)
    let ctx1 := ctx.import_errors cres.1
    if cres.1.toBool = false && stop then (ctx1, cres.2)
    else
      let more := chainLoop stop rest value ctx1
      (more.1, cres.2 ++ more.2)
termination_by (sizeOf vs, 0, 0)

/-- `Some._internal_is_valid`: return the untouched context on the
first passing child; if all fail, import every child's errors in
order. -/
def someLoop (vs : List Validator) (value : PyVal) (ctx : Ctx)
    (acc : List Ctx) : Ctx × Trace :=
  match vs with
  | [] => (acc.foldl (fun c cc => c.import_errors cc) ctx, [])
  | v :: rest =>
    let cres := isValid v value (some ctx)
    if cres.1.toBool then (ctx, cres.2)
    else
      let more := someLoop rest value ctx (acc ++ [cres.1])
      (more.1, cres.2 ++ more.2)
termination_by (sizeOf vs, 0, 0)

/-- `AllItems._internal_is_valid`: run the item validator per item, and
bring failures in under the stringified index, halting on
`stop_on_fail`. -/
def allItemsLoop (stop : Bool) (child : Validator)
    (items : List (String × PyVal)) (ctx : Ctx) : Ctx × Trace :=
  match items with
  | [] => (ctx, [])
  | (idx, val) :: rest =>
    let cres := isValid child val (some ctx)
    if cres.1.toBool = false then
      let ctx1 := ctx.import_errors cres.1 (some idx)
      if stop then (ctx1, cres.2)
      else
        let more := allItemsLoop stop child rest ctx1
        (more.1, cres.2 ++ more.2)
    else
      let more := allItemsLoop stop child rest ctx
      (more.1, cres.2 ++ more.2)
termination_by (sizeOf child, items.length, 0)

/-- Loop of `SomeItems._internal_is_valid`: per-item failures go into
the temporary sub-context under the item index, passing items are
counted, and crossing `max` emits `tooManyValidItems` once at the outer
scope.  Returns the final temporary context, passing count, the
`already_too_many` flag, the outer context and the trace. -/
def someItemsLoop (child : Validator) (vmax : Int) (stop : Bool)
    (items : List (String × PyVal)) (tmp : Ctx) (item_pass : Nat)
    (already_too_many : Bool) (ctx : Ctx) :
    Ctx × Nat × Bool × Ctx × Trace :=
  match items with
  | [] => (tmp, item_pass, already_too_many, ctx, [])
  | (idx, val) :: rest =>
    let cres := isValid child val (some tmp)
    let tmp1 := if cres.1.toBool = false
      then tmp.import_errors cres.1 (some idx) else tmp
    let pass1 := if cres.1.toBool = false then item_pass else item_pass + 1
    if !already_too_many && vmax ≠ -1 && (pass1 : Int) > vmax then
      let ctx1 := ctx.error "tooManyValidItems"
        "Too many items pass validation"
      if stop then (tmp1, pass1, true, ctx1, cres.2)
      else
        let more := someItemsLoop child vmax stop rest tmp1 pass1 true ctx1
        (more.1, more.2.1, more.2.2.1, more.2.2.2.1, cres.2 ++ more.2.2.2.2)
    else
      let more := someItemsLoop child vmax stop rest tmp1 pass1
        already_too_many ctx
      (more.1, more.2.1, more.2.2.1, more.2.2.2.1, cres.2 ++ more.2.2.2.2)
termination_by (sizeOf child, items.length, 0)

/-- `SomeItems._internal_is_valid`: run the loop against a fresh
temporary sub-context, emit `tooFewValidItems` when the passing count
ends below `min`, and merge the per-item detail into the outer context
only when the outer context already records a failure. -/
def someItemsInternal (vmin vmax : Int) (stop : Bool) (child : Validator)
    (value : PyVal) (ctx : Ctx) : Ctx × Trace :=
  let tmp0 := Ctx.make PyVal.none (some ctx) false
  let res := someItemsLoop child vmax stop (iterValues value) tmp0 0 false ctx
  let tmp := res.1
  let item_pass := res.2.1
  let ctx1 := res.2.2.2.1
  let tr := res.2.2.2.2
  let ctx2 :=
    if vmin ≠ -1 ∧ (item_pass : Int) < vmin then
      ctx1.error "tooFewValidItems" "Too few items pass validation"
    else ctx1
  let ctx3 := if ctx2.toBool = false then ctx2.import_errors tmp else ctx2
  (ctx3, tr)
termination_by (sizeOf child, (iterValues value).length + 1, 0)

end

/-! ## Construction-time configuration checks

`SomeItemsMixin.__init__` and `Length.__init__` assert their bounds,
`IPAddress.__init__` raises `ValueError` on zero allowed families; the
evaluator above is a total function of the configuration, so none of
these conditions is re-examined during `is_valid`. -/

/-- The two `assert` statements of `SomeItemsMixin.__init__`. -/
def someItemsInit (vmin vmax : Int) : Except String Unit :=
  if ¬(vmin ≠ -1 ∨ vmax ≠ -1) then
    .error "At least one of `min` or `max` must be specified."
  else if ¬(vmax = -1 ∨ vmin ≤ vmax) then
    .error "`min` cannot be more than `max`."
  else .ok ()

/-- The two `assert` statements of `Length.__init__` (defaults
`min=-1`, `max=-1`). -/
def lengthInit (vmin vmax : Int) : Except String Unit :=
  if ¬(vmin ≠ -1 ∨ vmax ≠ -1) then
    .error "At least one of `min` or `max` must be specified."
  else if ¬(vmax = -1 ∨ vmin ≤ vmax) then
    .error "`min` cannot be more than `max`."
  else .ok ()

/-- The `ValueError` raised by `IPAddress.__init__`. -/
def ipAddressInit (ipv4 ipv6 : Bool) : Except String Unit :=
  if ¬ipv4 ∧ ¬ipv6 then
    .error "IP Address Validator must have at least one of ipv4 or ipv6 enabled."
  else .ok ()

/-! ## Legacy flat-message export (`legacy.py`) -/

/-- A value of the legacy mapping: either a directly rendered message
(root-level errors) or a code-to-message sub-mapping (per-field
errors). -/
inductive LegacyVal where
  | msg (s : String)
  | sub (entries : List (String × String))
  deriving DecidableEq

/-- The grouping loop of `from_context_to_legacy_message`:
`msgs.setdefault(msg.field_path, []); msgs[msg.field_path].append(msg)`
over the context's errors, threading the dict being built. -/
def groupByPathGo (acc : List (Option String × List ValidationErrorMessage)) :
    List ValidationErrorMessage →
      List (Option String × List ValidationErrorMessage)
  | [] => acc
  | e :: rest =>
    match assocGet acc e.field_path with
    | some ms => groupByPathGo (assocSet acc e.field_path (ms ++ [e])) rest
    | Option.none => groupByPathGo (acc ++ [(e.field_path, [e])]) rest

/-- The whole grouping loop, starting from the empty dict. -/
def groupByPath (errs : List ValidationErrorMessage) :
    List (Option String × List ValidationErrorMessage) :=
  groupByPathGo [] errs

/-- `{m.code: m.msg for m in ms}` as the left-to-right insertion loop
a dict comprehension performs: the last binding for a code wins. -/
def codeMsgGo (acc : List (String × String)) :
    List ValidationErrorMessage → List (String × String)
  | [] => acc
  | m :: rest => codeMsgGo (assocSet acc m.code m.msg) rest

/-- `{m.code: m.msg for m in ms}`: last binding for a code wins. -/
def codeMsgMap (ms : List ValidationErrorMessage) : List (String × String) :=
  codeMsgGo [] ms

/-- `{m.code: m.msg for m in msgs.get(None, [])}`: the root entries of
the legacy mapping, rendered messages keyed by error code. -/
def legacyRootGo (acc : List (String × LegacyVal)) :
    List ValidationErrorMessage → List (String × LegacyVal)
  | [] => acc
  | m :: rest => legacyRootGo (assocSet acc m.code (LegacyVal.msg m.msg)) rest

/-- `{f: {m.code: m.msg for m in ms} for f, ms in msgs.items() if f is not
None}` written over the root entries: the second half of the dict union,
so a field-path key overwrites a root key of the same spelling. -/
def legacyFieldsGo (acc : List (String × LegacyVal)) :
    List (Option String × List ValidationErrorMessage) →
      List (String × LegacyVal)
  | [] => acc
  | (Option.none, _) :: rest => legacyFieldsGo acc rest
  | (some f, ms) :: rest =>
    legacyFieldsGo (assocSet acc f (LegacyVal.sub (codeMsgMap ms))) rest

/-- `from_context_to_legacy_message`: group the context's errors by
field path, render root errors (null path) keyed by code directly and
per-field errors keyed by path as code-to-message sub-mappings, merged
with Python dict-union semantics (`{**roots, **fields}`). -/
def from_context_to_legacy_message (ctx : Ctx) : List (String × LegacyVal) :=
  legacyFieldsGo
    (legacyRootGo []
      ((assocGet (groupByPath ctx.error_messages) Option.none).getD []))
    (groupByPath ctx.error_messages)

/-- Rendered message of the last error with the given field path and
error code, if any: the binding that survives the repeated dict
overwrites of the legacy export. -/
def lastMsgAt (errs : List ValidationErrorMessage) (path : Option String)
    (code : String) : Option String :=
  ((errs.filter (fun e => e.field_path = path)).reverse.find?
    (fun e => e.code = code)).map ValidationErrorMessage.msg

/-- A two-error context exercising the legacy export: one root error and
one field error on a disjoint path. -/
def legacyDemoCtx : Ctx :=
  Ctx.add_error
    (Ctx.add_error (Ctx.make PyVal.none Option.none true)
      { code := "a", msg_tpl := "m1", ctx_values := [], field_path := Option.none })
    { code := "b", msg_tpl := "m2", ctx_values := [], field_path := some "f" }

/-- A context whose root error's code coincides with another error's
field path, so the two halves of the legacy dict union collide. -/
def legacyClashCtx : Ctx :=
  Ctx.add_error
    (Ctx.add_error (Ctx.make PyVal.none Option.none true)
      { code := "x", msg_tpl := "m1", ctx_values := [], field_path := Option.none })
    { code := "y", msg_tpl := "m2", ctx_values := [], field_path := some "x" }

/-! ## Basic context lemmas -/

theorem Ctx.error_messages_add_error (c : Ctx) (e : ValidationErrorMessage) :
    (c.add_error e).error_messages = c.error_messages ++ [e] := by
  cases c; rfl

theorem Ctx.toBool_true_iff (c : Ctx) :
    c.toBool = true ↔ c.error_messages = [] := by
  simp [Ctx.toBool, List.length_eq_zero]

theorem Ctx.toBool_false_iff (c : Ctx) :
    c.toBool = false ↔ c.error_messages ≠ [] := by
  simp [Ctx.toBool, List.length_eq_zero]

theorem ValidationErrorMessage.copy_as_child_none
    (e : ValidationErrorMessage) :
    e.copy_as_child Option.none = e := by
  cases e; rfl

theorem Ctx.error_messages_foldl_add (c : Ctx)
    (es : List ValidationErrorMessage)
    (f : ValidationErrorMessage → ValidationErrorMessage) :
    (es.foldl (fun acc e => acc.add_error (f e)) c).error_messages
      = c.error_messages ++ es.map f := by
  induction es generalizing c with
  | nil => simp
  | cons e rest ih =>
    simp only [List.foldl_cons, List.map_cons]
    rw [ih, Ctx.error_messages_add_error]
    simp

theorem Ctx.import_errors_spec (c other : Ctx) (p : Option String) :
    (c.import_errors other p).error_messages
      = c.error_messages
          ++ other.error_messages.map (fun e => e.copy_as_child p) := by
  unfold Ctx.import_errors
  exact Ctx.error_messages_foldl_add c other.error_messages _

theorem Ctx.import_errors_none_spec (c other : Ctx) :
    (c.import_errors other).error_messages
      = c.error_messages ++ other.error_messages := by
  rw [Ctx.import_errors_spec]
  simp [ValidationErrorMessage.copy_as_child_none]

theorem Ctx.error_messages_make (value : PyVal) (parent : Option Ctx)
    (s hv : Bool) (hdv : String) (mv : List (String × PyVal)) :
    (Ctx.make value parent s hv hdv mv).error_messages = [] := rfl

theorem Ctx.error_messages_error (c : Ctx) (code tpl : String)
    (kwargs : List (String × PyVal)) :
    (c.error code tpl kwargs).error_messages
      = c.error_messages ++ [c.errorRecord code tpl kwargs] := by
  unfold Ctx.error
  rw [Ctx.error_messages_add_error]

theorem Ctx.errorRecord_code (c : Ctx) (code tpl : String)
    (kwargs : List (String × PyVal)) :
    (c.errorRecord code tpl kwargs).code = code := rfl

theorem Ctx.errorRecord_field_path (c : Ctx) (code tpl : String)
    (kwargs : List (String × PyVal)) :
    (c.errorRecord code tpl kwargs).field_path = Option.none := rfl

/-! ## Claim theorems -/

/-- C1: for every validator (leaf or composite), every input value and
every optional parent context, the `is_valid` entry returns a context,
and that context is truthy — the pass signal — exactly when its own
error-message list is empty. -/
theorem isValid_truthy_iff_no_own_errors (v : Validator) (value : PyVal)
    (parent_ctx : Option Ctx) :
    (isValid v value parent_ctx).1.toBool = true ↔
      (isValid v value parent_ctx).1.error_messages = [] :=
  Ctx.toBool_true_iff _

/-- C9: `import_errors` appends to the parent a `copy_as_child` copy of
every child error, leaving the child's errors untouched as values; the
copy preserves code, template and substitution values, and its field
path is the given segment dotted-joined as a prefix onto the original
path (the segment alone when the original path is null, the original
path when no segment is given). -/
theorem import_errors_copies_with_joined_path (parent child : Ctx)
    (seg : Option String) :
    (parent.import_errors child seg).error_messages
        = parent.error_messages
            ++ child.error_messages.map (fun e => e.copy_as_child seg)
    ∧ ∀ e : ValidationErrorMessage,
        (e.copy_as_child seg).code = e.code
        ∧ (e.copy_as_child seg).msg_tpl = e.msg_tpl
        ∧ (e.copy_as_child seg).ctx_values = e.ctx_values
        ∧ (e.copy_as_child seg).field_path =
            (match seg, e.field_path with
             | Option.none, p => p
             | some s, Option.none => some s
             | some s, some p => some (s ++ "." ++ p)) := by
  refine ⟨Ctx.import_errors_spec parent child seg, fun e => ?_⟩
  unfold ValidationErrorMessage.copy_as_child
  refine ⟨rfl, rfl, rfl, ?_⟩
  cases seg <;> cases h : e.field_path <;> simp

/-- Outermost ancestor of a context chain. -/
def Ctx.root (c : Ctx) : Ctx :=
  match h : c.parent with
  | Option.none => c
  | some p => p.root
termination_by c.depth
decreasing_by exact Ctx.depth_parent c p h

/-- The chain invariant behind C10: the outermost node of the chain is
a step context. -/
def Ctx.chainRootIsStep (c : Ctx) : Prop := c.root.is_step = true

theorem Ctx.root_parent_none (c : Ctx) (h : c.parent = Option.none) :
    c.root = c := by
  rw [Ctx.root]
  split
  · rfl
  · rename_i p hp
    rw [h] at hp
    exact absurd hp (by simp)

theorem Ctx.root_parent_some (c q : Ctx) (h : c.parent = some q) :
    c.root = q.root := by
  rw [Ctx.root]
  split
  · rename_i hp
    rw [h] at hp
    exact absurd hp (by simp)
  · rename_i p hp
    rw [h] at hp
    cases hp
    rfl

theorem Ctx.parent_step_is_step (c p : Ctx) (h : c.parent_step = some p) :
    p.is_step = true := by
  induction c using Ctx.parent_step.induct with
  | case1 c hp =>
    rw [parent_step, hp] at h
    exact absurd h (by simp)
  | case2 c q hp hstep =>
    rw [parent_step, hp] at h
    simp only [hstep, if_pos, Option.some.injEq] at h
    rw [← h]
    exact hstep
  | case3 c q hp hstep ih =>
    rw [parent_step, hp] at h
    simp only [hstep] at h
    exact ih h

theorem Ctx.parent_step_parent_none (c : Ctx) (h : c.parent = Option.none) :
    c.parent_step = Option.none := by
  rw [Ctx.parent_step]
  split
  · rfl
  · rename_i p hp
    rw [h] at hp
    exact absurd hp (by simp)

theorem Ctx.parent_step_parent_some (c q : Ctx) (h : c.parent = some q) :
    c.parent_step = if q.is_step then some q else q.parent_step := by
  rw [parent_step]
  split
  · rename_i hp; rw [h] at hp; exact absurd hp (by simp)
  · rename_i p hp; rw [h] at hp; cases hp; rfl

/-- C10: a context constructed without a parent is a step context no
matter what `is_step` argument its constructor receives; `parent_step`
only ever yields step contexts; the root-is-step invariant is
established by parentless construction and preserved when building on a
parent, and under it every non-step context has a step ancestor for
`parent_step` and `<root>`/`<context>` navigation to land on. -/
theorem parentless_context_is_step :
    (∀ (value : PyVal) (s hv : Bool) (hdv : String)
        (mv : List (String × PyVal)),
        (Ctx.make value Option.none s hv hdv mv).is_step = true)
    ∧ (∀ c p : Ctx, c.parent_step = some p → p.is_step = true)
    ∧ (∀ (value : PyVal) (parent : Ctx) (s hv : Bool) (hdv : String)
          (mv : List (String × PyVal)),
        Ctx.chainRootIsStep parent →
          Ctx.chainRootIsStep (Ctx.make value (some parent) s hv hdv mv))
    ∧ (∀ (value : PyVal) (s hv : Bool) (hdv : String)
          (mv : List (String × PyVal)),
        Ctx.chainRootIsStep (Ctx.make value Option.none s hv hdv mv))
    ∧ (∀ c : Ctx, Ctx.chainRootIsStep c → c.is_step = false →
        ∃ p, c.parent_step = some p ∧ p.is_step = true) := by
  have hmk : ∀ (value : PyVal) (s hv : Bool) (hdv : String)
      (mv : List (String × PyVal)),
      (Ctx.make value Option.none s hv hdv mv).is_step = true := by
    intro value s hv hdv mv
    simp [Ctx.make, Ctx.is_step]
  refine ⟨hmk, fun c p h => Ctx.parent_step_is_step c p h, ?_, ?_, ?_⟩
  · intro value parent s hv hdv mv hparent
    unfold Ctx.chainRootIsStep at hparent ⊢
    rw [Ctx.root_parent_some _ parent (by simp [Ctx.make, Ctx.parent])]
    exact hparent
  · intro value s hv hdv mv
    unfold Ctx.chainRootIsStep
    rw [Ctx.root_parent_none _ (by simp [Ctx.make, Ctx.parent])]
    exact hmk value s hv hdv mv
  · intro c
    induction c using Ctx.parent_step.induct with
    | case1 c hp =>
      intro hroot hstep
      unfold Ctx.chainRootIsStep at hroot
      rw [Ctx.root_parent_none c hp] at hroot
      rw [hroot] at hstep
      exact absurd hstep (by simp)
    | case2 c q hp hstep =>
      intro _ _
      refine ⟨q, ?_, hstep⟩
      rw [Ctx.parent_step_parent_some c q hp, if_pos hstep]
    | case3 c q hp hstep ih =>
      intro hroot hcstep
      have hqroot : Ctx.chainRootIsStep q := by
        unfold Ctx.chainRootIsStep at hroot ⊢
        rw [Ctx.root_parent_some c q hp] at hroot
        exact hroot
      obtain ⟨p, hps, hpstep⟩ :=
        ih hqroot (by simpa using hstep)
      refine ⟨p, ?_, hpstep⟩
      rw [Ctx.parent_step_parent_some c q hp, if_neg (by simpa using hstep)]
      exact hps

/-- Witness for C10: a non-step child built by a pass-through combinator
on a parentless chain still reaches a step ancestor. -/
theorem parentless_context_is_step_witness :
    Ctx.chainRootIsStep
        (Ctx.make (PyVal.str "v")
          (some (Ctx.make PyVal.none Option.none false)) false)
      ∧ ∃ p,
        (Ctx.make (PyVal.str "v")
            (some (Ctx.make PyVal.none Option.none false)) false).parent_step
          = some p ∧ p.is_step = true := by
  have hroot : Ctx.chainRootIsStep
      (Ctx.make (PyVal.str "v")
        (some (Ctx.make PyVal.none Option.none false)) false) := by
    unfold Ctx.chainRootIsStep
    rw [Ctx.root_parent_some _ (Ctx.make PyVal.none Option.none false)
      (by simp [Ctx.make, Ctx.parent])]
    rw [Ctx.root_parent_none _ (by simp [Ctx.make, Ctx.parent])]
    simp [Ctx.make, Ctx.is_step]
  exact ⟨hroot,
    parentless_context_is_step.2.2.2.2 _ hroot
      (by simp [Ctx.make, Ctx.is_step])⟩

/-- C7: the bound and address-family configuration checks fail exactly
at construction time — `SomeItems`/`Length` accept a configuration iff
at least one bound is set and the bounds are ordered, `IPAddress`
accepts iff at least one family is enabled — while evaluation is a
total function of any configuration and never re-examines these
conditions. -/
theorem misconfiguration_fails_at_construction :
    (∀ vmin vmax : Int,
        someItemsInit vmin vmax = .ok () ↔
          ((vmin ≠ -1 ∨ vmax ≠ -1) ∧ (vmax = -1 ∨ vmin ≤ vmax)))
    ∧ (∀ vmin vmax : Int,
        lengthInit vmin vmax = .ok () ↔
          ((vmin ≠ -1 ∨ vmax ≠ -1) ∧ (vmax = -1 ∨ vmin ≤ vmax)))
    ∧ (∀ ipv4 ipv6 : Bool,
        ipAddressInit ipv4 ipv6 = .ok () ↔ (ipv4 = true ∨ ipv6 = true))
    ∧ (∀ (vmin vmax : Int) (stop : Bool) (child : Validator)
          (value : PyVal) (parent_ctx : Option Ctx),
        ∃ r, isValid (.someItems vmin vmax stop child) value parent_ctx
          = r) := by
  refine ⟨fun vmin vmax => ?_, fun vmin vmax => ?_, fun i4 i6 => ?_,
    fun _ _ _ _ _ _ => ⟨_, rfl⟩⟩
  · unfold someItemsInit
    split_ifs with h1 h2 <;> simp_all
  · unfold lengthInit
    split_ifs with h1 h2 <;> simp_all
  · unfold ipAddressInit
    cases i4 <;> cases i6 <;> simp

/-- Witness for C7: a well-formed configuration constructs, the
mal-formed ones err. -/
theorem misconfiguration_fails_at_construction_witness :
    someItemsInit 2 3 = .ok () ∧ lengthInit 4 6 = .ok ()
      ∧ ipAddressInit true false = .ok () :=
  ⟨(misconfiguration_fails_at_construction.1 2 3).mpr (by decide),
   (misconfiguration_fails_at_construction.2.1 4 6).mpr (by decide),
   (misconfiguration_fails_at_construction.2.2.1 true false).mpr
     (by decide)⟩

/-! ## Chain semantics (C2) -/

theorem buildContext_error_messages (v : Validator) (value : PyVal)
    (pctx : Option Ctx) : (v.buildContext value pctx).error_messages = [] :=
  rfl

theorem isValid_chain_unfold (stop : Bool) (vs : List Validator)
    (value : PyVal) (pctx : Option Ctx) :
    isValid (Validator.chain stop vs) value pctx
      = ((chainLoop stop vs value
            ((Validator.chain stop vs).buildContext value pctx)).1,
         (Validator.chain stop vs, value)
           :: (chainLoop stop vs value
                ((Validator.chain stop vs).buildContext value pctx)).2) := by
  rw [isValid]
  simp [internalIsValid]

theorem chainLoop_nil (stop : Bool) (value : PyVal) (ctx : Ctx) :
    chainLoop stop [] value ctx = (ctx, []) := by
  rw [chainLoop]

theorem chainLoop_cons_fail_stop (V : Validator) (rest : List Validator)
    (value : PyVal) (ctx : Ctx)
    (h : (isValid V value (some ctx)).1.toBool = false) :
    chainLoop true (V :: rest) value ctx
      = (ctx.import_errors (isValid V value (some ctx)).1,
         (isValid V value (some ctx)).2) := by
  rw [chainLoop]
  simp [h]

theorem chainLoop_cons_nostop (V : Validator) (rest : List Validator)
    (value : PyVal) (ctx : Ctx) :
    chainLoop false (V :: rest) value ctx
      = ((chainLoop false rest value
            (ctx.import_errors (isValid V value (some ctx)).1)).1,
         (isValid V value (some ctx)).2
           ++ (chainLoop false rest value
                (ctx.import_errors (isValid V value (some ctx)).1)).2) := by
  rw [chainLoop]
  simp

/-- C2: for a `Chain` with `stop_on_fail=true` and children `[A, B, C]`
where A rejects the value, the result carries exactly A's errors and the
trace is the chain's own invocation followed only by A's evaluation —
B and C never execute.  With `stop_on_fail=false` the errors of A, B and
C all appear in child order and all three children run. -/
theorem chain_stop_on_fail_semantics (A B C : Validator) (v : PyVal)
    (parent_ctx : Option Ctx)
    (hA : (isValid A v
        (some ((Validator.chain true [A, B, C]).buildContext v
          parent_ctx))).1.toBool = false) :
    ((isValid (Validator.chain true [A, B, C]) v parent_ctx).1.error_messages
        = (isValid A v
            (some ((Validator.chain true [A, B, C]).buildContext v
              parent_ctx))).1.error_messages
      ∧ (isValid (Validator.chain true [A, B, C]) v parent_ctx).2
        = (Validator.chain true [A, B, C], v)
            :: (isValid A v
                 (some ((Validator.chain true [A, B, C]).buildContext v
                   parent_ctx))).2)
    ∧ ((isValid (Validator.chain false [A, B, C]) v parent_ctx).1.error_messages
        = (isValid A v
             (some ((Validator.chain false [A, B, C]).buildContext v
               parent_ctx))).1.error_messages
          ++ (isValid B v
               (some (((Validator.chain false [A, B, C]).buildContext v
                   parent_ctx).import_errors
                 (isValid A v
                   (some ((Validator.chain false [A, B, C]).buildContext v
                     parent_ctx))).1))).1.error_messages
          ++ (isValid C v
               (some ((((Validator.chain false [A, B, C]).buildContext v
                     parent_ctx).import_errors
                   (isValid A v
                     (some ((Validator.chain false [A, B, C]).buildContext v
                       parent_ctx))).1).import_errors
                 (isValid B v
                   (some (((Validator.chain false [A, B, C]).buildContext v
                       parent_ctx).import_errors
                     (isValid A v
                       (some ((Validator.chain false [A, B, C]).buildContext v
                         parent_ctx))).1))).1))).1.error_messages
      ∧ (isValid (Validator.chain false [A, B, C]) v parent_ctx).2
        = (Validator.chain false [A, B, C], v)
            :: ((isValid A v
                  (some ((Validator.chain false [A, B, C]).buildContext v
                    parent_ctx))).2
              ++ (isValid B v
                   (some (((Validator.chain false [A, B, C]).buildContext v
                       parent_ctx).import_errors
                     (isValid A v
                       (some ((Validator.chain false [A, B, C]).buildContext v
                         parent_ctx))).1))).2
              ++ (isValid C v
                   (some ((((Validator.chain false [A, B, C]).buildContext v
                         parent_ctx).import_errors
                       (isValid A v
                         (some ((Validator.chain false [A, B, C]).buildContext
                           v parent_ctx))).1).import_errors
                     (isValid B v
                       (some (((Validator.chain false [A, B, C]).buildContext
                           v parent_ctx).import_errors
                         (isValid A v
                           (some ((Validator.chain false [A, B,
                             C]).buildContext v parent_ctx))).1))).1))).2)) := by
  constructor
  · rw [isValid_chain_unfold, chainLoop_cons_fail_stop A [B, C] v _ hA]
    refine ⟨?_, rfl⟩
    rw [Ctx.import_errors_none_spec, buildContext_error_messages]
    simp
  · rw [isValid_chain_unfold]
    rw [chainLoop_cons_nostop A [B, C] v]
    rw [chainLoop_cons_nostop B [C] v]
    rw [chainLoop_cons_nostop C [] v]
    rw [chainLoop_nil]
    constructor
    · simp only []
      rw [Ctx.import_errors_none_spec, Ctx.import_errors_none_spec,
        Ctx.import_errors_none_spec, buildContext_error_messages]
      simp [List.append_assoc]
    · simp [List.append_assoc]

/-- Witness for C2: `Length(4,6)` rejects `"tes"`, so a stop-on-fail
chain reports exactly its error. -/
theorem chain_stop_on_fail_semantics_witness :
    (isValid (Validator.length 4 6) (.str "tes")
        (some ((Validator.chain true [Validator.length 4 6,
            Validator.length 1 2, Validator.length 7 9]).buildContext
          (.str "tes") Option.none))).1.toBool = false
    ∧ (isValid (Validator.chain true [Validator.length 4 6,
          Validator.length 1 2, Validator.length 7 9]) (.str "tes")
        Option.none).1.error_messages
      = (isValid (Validator.length 4 6) (.str "tes")
          (some ((Validator.chain true [Validator.length 4 6,
              Validator.length 1 2, Validator.length 7 9]).buildContext
            (.str "tes") Option.none))).1.error_messages := by
  have hA : (isValid (Validator.length 4 6) (.str "tes")
      (some ((Validator.chain true [Validator.length 4 6,
          Validator.length 1 2, Validator.length 7 9]).buildContext
        (.str "tes") Option.none))).1.toBool = false := by
    simp only [isValid, internalIsValid]
    simp [lengthInternal, pyLen, Validator.buildContext,
      Validator.messageValues, Validator.isStepValidator, Ctx.make,
      Ctx.toBool, Ctx.error, Ctx.errorRecord, Ctx.add_error, Ctx.error_messages, Ctx.value,
      Ctx.hide_value, Ctx.hidden_value, Ctx.message_values, dictUpdate,
      dictSet, assocSet]
    decide
  exact ⟨hA, (chain_stop_on_fail_semantics (Validator.length 4 6)
    (Validator.length 1 2) (Validator.length 7 9) (.str "tes")
    Option.none hA).1.1⟩

/-! ## SomeItems semantics (C3, C4) -/

/-- The `SomeItems` loop exactly as `_internal_is_valid` invokes it:
fresh temporary sub-context (`Context(parent=ctx)`) over the outer step
context built by `is_valid`, starting from zero passing items. -/
def someItemsRun (vmin vmax : Int) (stop : Bool) (child : Validator)
    (value : PyVal) (parent_ctx : Option Ctx) :
    Ctx × Nat × Bool × Ctx × Trace :=
  someItemsLoop child vmax stop (iterValues value)
    (Ctx.make PyVal.none
      (some ((Validator.someItems vmin vmax stop child).buildContext value
        parent_ctx)) false)
    0 false
    ((Validator.someItems vmin vmax stop child).buildContext value parent_ctx)

theorem isValid_someItems_unfold (vmin vmax : Int) (stop : Bool)
    (child : Validator) (value : PyVal) (pctx : Option Ctx) :
    isValid (Validator.someItems vmin vmax stop child) value pctx
      = ((if (if vmin ≠ -1 ∧
              (((someItemsRun vmin vmax stop child value pctx).2.1 : Int)
                < vmin) then
              (someItemsRun vmin vmax stop child value pctx).2.2.2.1.error
                "tooFewValidItems" "Too few items pass validation"
            else
              (someItemsRun vmin vmax stop child value pctx).2.2.2.1).toBool
            = false then
          (if vmin ≠ -1 ∧
              (((someItemsRun vmin vmax stop child value pctx).2.1 : Int)
                < vmin) then
            (someItemsRun vmin vmax stop child value pctx).2.2.2.1.error
              "tooFewValidItems" "Too few items pass validation"
          else
            (someItemsRun vmin vmax stop child value pctx).2.2.2.1).import_errors
            (someItemsRun vmin vmax stop child value pctx).1
        else
          (if vmin ≠ -1 ∧
              (((someItemsRun vmin vmax stop child value pctx).2.1 : Int)
                < vmin) then
            (someItemsRun vmin vmax stop child value pctx).2.2.2.1.error
              "tooFewValidItems" "Too few items pass validation"
          else
            (someItemsRun vmin vmax stop child value pctx).2.2.2.1)),
         (Validator.someItems vmin vmax stop child, value)
           :: (someItemsRun vmin vmax stop child value pctx).2.2.2.2) := by
  rw [isValid]
  simp only [internalIsValid]
  rw [someItemsInternal]
  simp only [someItemsRun]

/-- C4 counterexample: validating
`["tes", "1234", "abcdefghijklmno"]` with
`SomeItems(min=2, max=3, validator=Length(min=4, max=6))` has exactly
one item (`"1234"`, length 4) passing individually, refuting the
claimed count of zero. -/
theorem someItems_example_zero_pass_refuted :
    (someItemsRun 2 3 true (Validator.length 4 6)
        (.list [.str "tes", .str "1234", .str "abcdefghijklmno"])
        Option.none).2.1 = 1
    ∧ ¬((someItemsRun 2 3 true (Validator.length 4 6)
        (.list [.str "tes", .str "1234", .str "abcdefghijklmno"])
        Option.none).2.1 = 0) := by
  have h : (someItemsRun 2 3 true (Validator.length 4 6)
      (.list [.str "tes", .str "1234", .str "abcdefghijklmno"])
      Option.none).2.1 = 1 := by
    simp [someItemsRun, someItemsLoop, isValid, internalIsValid,
      lengthInternal, pyLen, iterValues, Validator.buildContext,
      Validator.messageValues, Validator.isStepValidator, Ctx.make,
      Ctx.toBool, Ctx.error, Ctx.errorRecord, Ctx.add_error, Ctx.import_errors,
      Ctx.error_messages, Ctx.value, Ctx.hide_value, Ctx.hidden_value,
      Ctx.message_values, ValidationErrorMessage.copy_as_child, dictUpdate,
      dictSet, assocSet, List.enum, List.enumFrom]
    decide
  exact ⟨h, by rw [h]; decide⟩

/-- C4 (amended): on that input one item passes individually (not
zero), and the result holds a `tooFewValidItems` error at the outer
scope plus per-item detail for the two items that individually failed
the length check, path-prefixed by their indices. -/
theorem someItems_example_amended :
    (isValid (Validator.someItems 2 3 true (Validator.length 4 6))
        (.list [.str "tes", .str "1234", .str "abcdefghijklmno"])
        Option.none).1.error_messages.map
      (fun e => (e.code, e.field_path))
      = [("tooFewValidItems", Option.none), ("tooShort", some "0"),
         ("tooLong", some "2")]
    ∧ (someItemsRun 2 3 true (Validator.length 4 6)
        (.list [.str "tes", .str "1234", .str "abcdefghijklmno"])
        Option.none).2.1 = 1 := by
  constructor
  · simp [isValid, internalIsValid, someItemsInternal, someItemsLoop,
      lengthInternal, pyLen, iterValues, Validator.buildContext,
      Validator.messageValues, Validator.isStepValidator, Ctx.make,
      Ctx.toBool, Ctx.error, Ctx.errorRecord, Ctx.add_error, Ctx.import_errors,
      Ctx.error_messages, Ctx.value, Ctx.hide_value, Ctx.hidden_value,
      Ctx.message_values, ValidationErrorMessage.copy_as_child, dictUpdate,
      dictSet, assocSet, List.enum, List.enumFrom]
    decide
  · simp [someItemsRun, someItemsLoop, isValid, internalIsValid,
      lengthInternal, pyLen, iterValues, Validator.buildContext,
      Validator.messageValues, Validator.isStepValidator, Ctx.make,
      Ctx.toBool, Ctx.error, Ctx.errorRecord, Ctx.add_error, Ctx.import_errors,
      Ctx.error_messages, Ctx.value, Ctx.hide_value, Ctx.hidden_value,
      Ctx.message_values, ValidationErrorMessage.copy_as_child, dictUpdate,
      dictSet, assocSet, List.enum, List.enumFrom]
    decide

theorem ValidationErrorMessage.copy_as_child_some_isSome
    (e : ValidationErrorMessage) (s : String) :
    ((e.copy_as_child (some s)).field_path).isSome = true := by
  unfold ValidationErrorMessage.copy_as_child
  cases e.field_path <;> simp

theorem exists_error_self (c : Ctx) (code tpl : String)
    (kwargs : List (String × PyVal)) :
    ∃ e ∈ (c.error code tpl kwargs).error_messages,
      e.code = code ∧ e.field_path = Option.none := by
  refine ⟨c.errorRecord code tpl kwargs, ?_, rfl, rfl⟩
  rw [Ctx.error_messages_error]
  simp

/-- Loop invariant for `SomeItems`: the outer context only ever gains
`tooManyValidItems` errors with no field path, and the temporary
sub-context only gains index-prefixed (non-null-path) errors. -/
theorem someItemsLoop_invariant (child : Validator) (vmax : Int)
    (stop : Bool) (items : List (String × PyVal)) (tmp : Ctx)
    (item_pass : Nat) (many : Bool) (ctx : Ctx) :
    (∃ l, (someItemsLoop child vmax stop items tmp item_pass many
          ctx).2.2.2.1.error_messages
        = ctx.error_messages ++ l
      ∧ ∀ e ∈ l, e.code = "tooManyValidItems"
          ∧ e.field_path = Option.none)
    ∧ (∃ l, (someItemsLoop child vmax stop items tmp item_pass many
          ctx).1.error_messages
        = tmp.error_messages ++ l
      ∧ ∀ e ∈ l, e.field_path.isSome = true) := by
  induction items generalizing tmp item_pass many ctx with
  | nil =>
    rw [someItemsLoop]
    exact ⟨⟨[], by simp, by simp⟩, ⟨[], by simp, by simp⟩⟩
  | cons item rest ih =>
    obtain ⟨idx, val⟩ := item
    rw [someItemsLoop]
    simp only []
    by_cases hres : (isValid child val (some tmp)).1.toBool = false
    · rw [if_pos hres, if_pos hres]
      split
      · split
        · -- item fails, threshold crossed, stop: halt
          refine ⟨⟨[ctx.errorRecord "tooManyValidItems"
              "Too many items pass validation" []],
              Ctx.error_messages_error ctx _ _ _, ?_⟩,
            ⟨(isValid child val (some tmp)).1.error_messages.map
              (fun a => a.copy_as_child (some idx)),
              Ctx.import_errors_spec tmp _ (some idx), ?_⟩⟩
          · intro e he
            simp only [List.mem_singleton] at he
            subst he
            exact ⟨rfl, rfl⟩
          · intro e he
            simp only [List.mem_map] at he
            obtain ⟨a, _, rfl⟩ := he
            exact ValidationErrorMessage.copy_as_child_some_isSome a idx
        · -- item fails, threshold crossed, keep iterating
          obtain ⟨⟨l, hl, hlp⟩, ⟨l2, hl2, hl2p⟩⟩ :=
            ih (tmp.import_errors (isValid child val (some tmp)).1
              (some idx)) item_pass true
              (ctx.error "tooManyValidItems"
                "Too many items pass validation" [])
          dsimp only
          constructor
          · refine ⟨ctx.errorRecord "tooManyValidItems"
              "Too many items pass validation" [] :: l, ?_, ?_⟩
            · rw [hl, Ctx.error_messages_error, List.append_assoc]
              rfl
            · intro e he
              rcases List.mem_cons.1 he with h | h
              · subst h
                exact ⟨rfl, rfl⟩
              · exact hlp e h
          · refine ⟨(isValid child val (some tmp)).1.error_messages.map
              (fun a => a.copy_as_child (some idx)) ++ l2, ?_, ?_⟩
            · rw [hl2, Ctx.import_errors_spec, List.append_assoc]
            · intro e he
              rcases List.mem_append.1 he with h | h
              · simp only [List.mem_map] at h
                obtain ⟨a, _, rfl⟩ := h
                exact ValidationErrorMessage.copy_as_child_some_isSome a idx
              · exact hl2p e h
      · -- item fails, threshold not crossed: keep iterating
        obtain ⟨⟨l, hl, hlp⟩, ⟨l2, hl2, hl2p⟩⟩ :=
          ih (tmp.import_errors (isValid child val (some tmp)).1
            (some idx)) item_pass many ctx
        dsimp only
        constructor
        · exact ⟨l, hl, hlp⟩
        · refine ⟨(isValid child val (some tmp)).1.error_messages.map
            (fun a => a.copy_as_child (some idx)) ++ l2, ?_, ?_⟩
          · rw [hl2, Ctx.import_errors_spec, List.append_assoc]
          · intro e he
            rcases List.mem_append.1 he with h | h
            · simp only [List.mem_map] at h
              obtain ⟨a, _, rfl⟩ := h
              exact ValidationErrorMessage.copy_as_child_some_isSome a idx
            · exact hl2p e h
    · rw [if_neg hres, if_neg hres]
      split
      · split
        · -- item passes, threshold crossed, stop: halt
          refine ⟨⟨[ctx.errorRecord "tooManyValidItems"
              "Too many items pass validation" []],
              Ctx.error_messages_error ctx _ _ _, ?_⟩,
            ⟨[], by simp, by simp⟩⟩
          intro e he
          simp only [List.mem_singleton] at he
          subst he
          exact ⟨rfl, rfl⟩
        · -- item passes, threshold crossed, keep iterating
          obtain ⟨⟨l, hl, hlp⟩, ⟨l2, hl2, hl2p⟩⟩ :=
            ih tmp (item_pass + 1) true
              (ctx.error "tooManyValidItems"
                "Too many items pass validation" [])
          dsimp only
          constructor
          · refine ⟨ctx.errorRecord "tooManyValidItems"
              "Too many items pass validation" [] :: l, ?_, ?_⟩
            · rw [hl, Ctx.error_messages_error, List.append_assoc]
              rfl
            · intro e he
              rcases List.mem_cons.1 he with h | h
              · subst h
                exact ⟨rfl, rfl⟩
              · exact hlp e h
          · exact ⟨l2, hl2, hl2p⟩
      · -- item passes, threshold not crossed: keep iterating
        obtain ⟨⟨l, hl, hlp⟩, ⟨l2, hl2, hl2p⟩⟩ :=
          ih tmp (item_pass + 1) many ctx
        dsimp only
        exact ⟨⟨l, hl, hlp⟩, ⟨l2, hl2, hl2p⟩⟩

/-- C3: for a `SomeItems` validator, `tooFewValidItems` is emitted (at
the outer scope, with no field path) exactly when the count of
individually passing items ends below `min`; an overall success shows
no error at all (per-item noise suppressed); an overall failure makes
every per-item detail error of the temporary sub-context visible in the
returned outer context. -/
theorem map_copy_as_child_none (l : List ValidationErrorMessage) :
    l.map (fun e => e.copy_as_child Option.none) = l := by
  induction l with
  | nil => rfl
  | cons e rest ih =>
    simp [ValidationErrorMessage.copy_as_child_none, ih]

/-- C3: for a `SomeItems` validator, `tooFewValidItems` is emitted (at
the outer scope, with no field path) exactly when the count of
individually passing items ends below `min`; an overall success shows
no error at all (per-item noise suppressed); an overall failure makes
every per-item detail error of the temporary sub-context visible in the
returned outer context. -/
theorem someItems_error_visibility (vmin vmax : Int) (stop : Bool)
    (child : Validator) (value : PyVal) (parent_ctx : Option Ctx) :
    ((∃ e ∈ (isValid (Validator.someItems vmin vmax stop child) value
          parent_ctx).1.error_messages,
        e.code = "tooFewValidItems" ∧ e.field_path = Option.none)
      ↔ (((someItemsRun vmin vmax stop child value parent_ctx).2.1 : Int)
          < vmin))
    ∧ ((isValid (Validator.someItems vmin vmax stop child) value
          parent_ctx).1.toBool = true →
        (isValid (Validator.someItems vmin vmax stop child) value
          parent_ctx).1.error_messages = [])
    ∧ ((isValid (Validator.someItems vmin vmax stop child) value
          parent_ctx).1.toBool = false →
        ∀ e ∈ (someItemsRun vmin vmax stop child value
            parent_ctx).1.error_messages,
          e ∈ (isValid (Validator.someItems vmin vmax stop child) value
            parent_ctx).1.error_messages) := by
  obtain ⟨⟨lc, hlc, hlcprop⟩, ⟨lt, hlt, hltprop⟩⟩ :=
    someItemsLoop_invariant child vmax stop (iterValues value)
      (Ctx.make PyVal.none
        (some ((Validator.someItems vmin vmax stop child).buildContext value
          parent_ctx)) false)
      0 false
      ((Validator.someItems vmin vmax stop child).buildContext value
        parent_ctx)
  rw [buildContext_error_messages] at hlc
  rw [Ctx.error_messages_make] at hlt
  simp only [List.nil_append] at hlc hlt
  have hlc' : (someItemsRun vmin vmax stop child value
      parent_ctx).2.2.2.1.error_messages = lc := hlc
  have hlt' : (someItemsRun vmin vmax stop child value
      parent_ctx).1.error_messages = lt := hlt
  refine ⟨?_, fun htrue => (Ctx.toBool_true_iff _).1 htrue, ?_⟩
  all_goals by_cases hfew : vmin ≠ -1 ∧
    (((someItemsRun vmin vmax stop child value parent_ctx).2.1 : Int)
      < vmin)
  -- case: tooFewValidItems fires
  case pos =>
    have hctx2 : ((someItemsRun vmin vmax stop child value
          parent_ctx).2.2.2.1.error "tooFewValidItems"
          "Too few items pass validation").error_messages
        = lc ++ [(someItemsRun vmin vmax stop child value
            parent_ctx).2.2.2.1.errorRecord "tooFewValidItems"
            "Too few items pass validation"] := by
      rw [Ctx.error_messages_error, hlc']
    have hb : ((someItemsRun vmin vmax stop child value
        parent_ctx).2.2.2.1.error "tooFewValidItems"
        "Too few items pass validation").toBool = false := by
      rw [Ctx.toBool_false_iff, hctx2]
      simp
    have hreserr : (isValid (Validator.someItems vmin vmax stop child)
        value parent_ctx).1.error_messages
        = (lc ++ [(someItemsRun vmin vmax stop child value
            parent_ctx).2.2.2.1.errorRecord "tooFewValidItems"
            "Too few items pass validation"]) ++ lt := by
      rw [isValid_someItems_unfold]
      dsimp only
      rw [if_pos hfew, if_pos hb, Ctx.import_errors_spec, hctx2, hlt',
        map_copy_as_child_none]
    constructor
    · intro _
      exact hfew.2
    · intro _
      refine ⟨(someItemsRun vmin vmax stop child value
          parent_ctx).2.2.2.1.errorRecord "tooFewValidItems"
          "Too few items pass validation", ?_, rfl, rfl⟩
      rw [hreserr]
      simp
  case pos =>
    have hctx2 : ((someItemsRun vmin vmax stop child value
          parent_ctx).2.2.2.1.error "tooFewValidItems"
          "Too few items pass validation").error_messages
        = lc ++ [(someItemsRun vmin vmax stop child value
            parent_ctx).2.2.2.1.errorRecord "tooFewValidItems"
            "Too few items pass validation"] := by
      rw [Ctx.error_messages_error, hlc']
    have hb : ((someItemsRun vmin vmax stop child value
        parent_ctx).2.2.2.1.error "tooFewValidItems"
        "Too few items pass validation").toBool = false := by
      rw [Ctx.toBool_false_iff, hctx2]
      simp
    have hreserr : (isValid (Validator.someItems vmin vmax stop child)
        value parent_ctx).1.error_messages
        = (lc ++ [(someItemsRun vmin vmax stop child value
            parent_ctx).2.2.2.1.errorRecord "tooFewValidItems"
            "Too few items pass validation"]) ++ lt := by
      rw [isValid_someItems_unfold]
      dsimp only
      rw [if_pos hfew, if_pos hb, Ctx.import_errors_spec, hctx2, hlt',
        map_copy_as_child_none]
    intro _ e he
    rw [hreserr]
    rw [hlt'] at he
    exact List.mem_append.2 (Or.inr he)
  -- case: tooFewValidItems does not fire
  case neg =>
    have hif : (isValid (Validator.someItems vmin vmax stop child) value
        parent_ctx).1
        = (if (someItemsRun vmin vmax stop child value
              parent_ctx).2.2.2.1.toBool = false then
            (someItemsRun vmin vmax stop child value
              parent_ctx).2.2.2.1.import_errors
              (someItemsRun vmin vmax stop child value parent_ctx).1
          else (someItemsRun vmin vmax stop child value
            parent_ctx).2.2.2.1) := by
      rw [isValid_someItems_unfold]
      dsimp only
      rw [if_neg hfew]
    have hnotlt : ¬(((someItemsRun vmin vmax stop child value
        parent_ctx).2.1 : Int) < vmin) := by
      intro hlt2
      have hne : vmin ≠ -1 := by
        intro heq
        rw [heq] at hlt2
        omega
      exact hfew ⟨hne, hlt2⟩
    constructor
    · rintro ⟨e, he, hcode, hpath⟩
      exfalso
      rw [hif] at he
      by_cases hb : (someItemsRun vmin vmax stop child value
          parent_ctx).2.2.2.1.toBool = false
      · rw [if_pos hb, Ctx.import_errors_spec, hlc', hlt',
          map_copy_as_child_none] at he
        rcases List.mem_append.1 he with h | h
        · have hc := (hlcprop e h).1
          rw [hc] at hcode
          exact absurd hcode (by decide)
        · have hs := hltprop e h
          rw [hpath] at hs
          exact absurd hs (by decide)
      · rw [if_neg hb, hlc'] at he
        have hc := (hlcprop e he).1
        rw [hc] at hcode
        exact absurd hcode (by decide)
    · intro hlt2
      exact absurd hlt2 hnotlt
  case neg =>
    have hif : (isValid (Validator.someItems vmin vmax stop child) value
        parent_ctx).1
        = (if (someItemsRun vmin vmax stop child value
              parent_ctx).2.2.2.1.toBool = false then
            (someItemsRun vmin vmax stop child value
              parent_ctx).2.2.2.1.import_errors
              (someItemsRun vmin vmax stop child value parent_ctx).1
          else (someItemsRun vmin vmax stop child value
            parent_ctx).2.2.2.1) := by
      rw [isValid_someItems_unfold]
      dsimp only
      rw [if_neg hfew]
    intro hfail e he
    rw [hif]
    rw [hif] at hfail
    by_cases hb : (someItemsRun vmin vmax stop child value
        parent_ctx).2.2.2.1.toBool = false
    · rw [if_pos hb, Ctx.import_errors_spec]
      refine List.mem_append.2 (Or.inr ?_)
      simp only [List.mem_map]
      exact ⟨e, he, ValidationErrorMessage.copy_as_child_none e⟩
    · rw [if_neg hb] at hfail
      exact absurd hfail hb

/-- Witness for C3: on the repository's own example the aggregate
verdict is failure and both per-item detail errors surface in the
returned context. -/
theorem someItems_error_visibility_witness :
    (isValid (Validator.someItems 2 3 true (Validator.length 4 6))
        (.list [.str "tes", .str "1234", .str "abcdefghijklmno"])
        Option.none).1.toBool = false
    ∧ ∀ e ∈ (someItemsRun 2 3 true (Validator.length 4 6)
          (.list [.str "tes", .str "1234", .str "abcdefghijklmno"])
          Option.none).1.error_messages,
        e ∈ (isValid (Validator.someItems 2 3 true (Validator.length 4 6))
          (.list [.str "tes", .str "1234", .str "abcdefghijklmno"])
          Option.none).1.error_messages := by
  have hfail : (isValid (Validator.someItems 2 3 true (Validator.length 4 6))
      (.list [.str "tes", .str "1234", .str "abcdefghijklmno"])
      Option.none).1.toBool = false := by
    simp [isValid, internalIsValid, someItemsInternal, someItemsLoop,
      lengthInternal, pyLen, iterValues, Validator.buildContext,
      Validator.messageValues, Validator.isStepValidator, Ctx.make,
      Ctx.toBool, Ctx.error, Ctx.errorRecord, Ctx.add_error, Ctx.import_errors,
      Ctx.error_messages, Ctx.value, Ctx.hide_value, Ctx.hidden_value,
      Ctx.message_values, ValidationErrorMessage.copy_as_child, dictUpdate,
      dictSet, assocSet, List.enum, List.enumFrom]
    decide
  exact ⟨hfail,
    (someItems_error_visibility 2 3 true (Validator.length 4 6)
      (.list [.str "tes", .str "1234", .str "abcdefghijklmno"])
      Option.none).2.2 hfail⟩

/-! ## Field-path resolution safety (C5) -/

theorem digitsToNatE_error (cs : List Char) :
    ∀ (acc : Nat) (e : PyErr),
      digitsToNatE acc cs = .error e → e = PyErr.valueError := by
  induction cs with
  | nil =>
    intro acc e h
    simp [digitsToNatE] at h
  | cons c rest ih =>
    intro acc e h
    rw [digitsToNatE] at h
    split at h
    · exact ih _ _ h
    · cases h
      rfl

theorem pyIntOfDigits_error (s : String) (e : PyErr)
    (h : pyIntOfDigits s = .error e) : e = PyErr.valueError :=
  digitsToNatE_error s.toList 0 e h

theorem resolveFields_error_catchable_or_value :
    ∀ (fields : List String) (v : PyVal) (e : PyErr),
      resolveFields v fields = .error e →
        isCaughtByGetField e = true ∨ e = PyErr.valueError := by
  intro fields
  induction fields with
  | nil =>
    intro v e h
    simp [resolveFields] at h
  | cons f rest ih =>
    intro v e h
    cases v with
    | list xs =>
      rw [resolveFields] at h
      by_cases hd : pyIsDigit f = true
      · rw [if_pos hd] at h
        split at h
        · split at h
          · exact ih _ e h
          · cases h
            exact Or.inl rfl
        · rename_i e0 hi
          cases h
          exact Or.inr (pyIntOfDigits_error f _ hi)
      · rw [if_neg hd] at h
        cases h
        exact Or.inl rfl
    | str s =>
      rw [resolveFields] at h
      by_cases hd : pyIsDigit f = true
      · rw [if_pos hd] at h
        split at h
        · split at h
          · exact ih _ e h
          · cases h
            exact Or.inl rfl
        · rename_i e0 hi
          cases h
          exact Or.inr (pyIntOfDigits_error f _ hi)
      · rw [if_neg hd] at h
        cases h
        exact Or.inl rfl
    | dict kvs =>
      rw [resolveFields] at h
      cases hx : dictGet kvs f with
      | some x =>
        rw [hx] at h
        exact ih x e h
      | none =>
        rw [hx] at h
        by_cases hd : pyIsDigit f = true
        · rw [if_pos hd] at h
          cases hi : pyIntOfDigits f with
          | ok m =>
            rw [hi] at h
            cases h
            exact Or.inl rfl
          | error e0 =>
            rw [hi] at h
            cases h
            exact Or.inr (pyIntOfDigits_error f _ hi)
        · rw [if_neg hd] at h
          exact ih PyVal.none e h
    | none =>
      have h' : (Except.error PyErr.attributeError : Except PyErr PyVal)
          = Except.error e := h
      cases h'
      exact Or.inl rfl
    | bool b =>
      have h' : (Except.error PyErr.attributeError : Except PyErr PyVal)
          = Except.error e := h
      cases h'
      exact Or.inl rfl
    | int n =>
      have h' : (Except.error PyErr.attributeError : Except PyErr PyVal)
          = Except.error e := h
      cases h'
      exact Or.inl rfl

/-- A `ValueError` escaping the traversal always originates at an
`int()` call on a segment that passed `isdigit` without being
decimal. -/
theorem resolveFields_value_error_from_digit :
    ∀ (fields : List String) (v : PyVal),
      resolveFields v fields = .error PyErr.valueError →
        ∃ field, field ∈ fields ∧ pyIsDigit field = true ∧
          pyIntOfDigits field = .error PyErr.valueError := by
  intro fields
  induction fields with
  | nil =>
    intro v h
    simp [resolveFields] at h
  | cons f rest ih =>
    intro v h
    cases v with
    | list xs =>
      rw [resolveFields] at h
      by_cases hd : pyIsDigit f = true
      · rw [if_pos hd] at h
        split at h
        · split at h
          · obtain ⟨g, hg, hgd, hge⟩ := ih _ h
            exact ⟨g, List.mem_cons_of_mem f hg, hgd, hge⟩
          · simp at h
        · rename_i e0 hi
          cases h
          exact ⟨f, List.mem_cons_self f rest, hd, hi⟩
      · rw [if_neg hd] at h
        simp at h
    | str s =>
      rw [resolveFields] at h
      by_cases hd : pyIsDigit f = true
      · rw [if_pos hd] at h
        split at h
        · split at h
          · obtain ⟨g, hg, hgd, hge⟩ := ih _ h
            exact ⟨g, List.mem_cons_of_mem f hg, hgd, hge⟩
          · simp at h
        · rename_i e0 hi
          cases h
          exact ⟨f, List.mem_cons_self f rest, hd, hi⟩
      · rw [if_neg hd] at h
        simp at h
    | dict kvs =>
      rw [resolveFields] at h
      cases hx : dictGet kvs f with
      | some x =>
        rw [hx] at h
        obtain ⟨g, hg, hgd, hge⟩ := ih _ h
        exact ⟨g, List.mem_cons_of_mem f hg, hgd, hge⟩
      | none =>
        rw [hx] at h
        by_cases hd : pyIsDigit f = true
        · rw [if_pos hd] at h
          cases hi : pyIntOfDigits f with
          | ok m =>
            rw [hi] at h
            have h' : (Except.error PyErr.keyError : Except PyErr PyVal)
                = Except.error PyErr.valueError := h
            simp at h'
          | error e0 =>
            rw [hi] at h
            cases h
            exact ⟨f, List.mem_cons_self f rest, hd, hi⟩
        · rw [if_neg hd] at h
          obtain ⟨g, hg, hgd, hge⟩ := ih _ h
          exact ⟨g, List.mem_cons_of_mem f hg, hgd, hge⟩
    | none =>
      have h' : (Except.error PyErr.attributeError : Except PyErr PyVal)
          = Except.error PyErr.valueError := h
      simp at h'
    | bool b =>
      have h' : (Except.error PyErr.attributeError : Except PyErr PyVal)
          = Except.error PyErr.valueError := h
      simp at h'
    | int n =>
      have h' : (Except.error PyErr.attributeError : Except PyErr PyVal)
          = Except.error PyErr.valueError := h
      simp at h'

theorem getFieldTry_error_catchable_or_value (value : PyVal)
    (head next : String) (e : PyErr)
    (h : getFieldTry value head next = .error e) :
    isCaughtByGetField e = true ∨ e = PyErr.valueError := by
  cases value <;> simp only [getFieldTry] at h
  case none => exact absurd h (by simp)
  all_goals exact resolveFields_error_catchable_or_value _ _ _ h

theorem getFieldE_ok_or_value (n : Nat) :
    ∀ ctx : Ctx, ctx.depth ≤ n →
      (∀ path, (∃ r, getFieldValueFromContextE path ctx = .ok r)
          ∨ getFieldValueFromContextE path ctx = .error PyErr.valueError)
      ∧ (∀ path, (∃ r, getFieldAtStep path ctx = .ok r)
          ∨ getFieldAtStep path ctx = .error PyErr.valueError) := by
  induction n with
  | zero =>
    intro ctx hd
    have hps : ctx.parent_step = Option.none := by
      cases hps : ctx.parent_step with
      | none => rfl
      | some p =>
        have := Ctx.depth_parent_step ctx p hps
        omega
    have hat : ∀ path, (∃ r, getFieldAtStep path ctx = .ok r)
        ∨ getFieldAtStep path ctx = .error PyErr.valueError := by
      intro path
      rw [getFieldAtStep]
      by_cases hctx : (splitFirstDot path).1 = "<context>"
      · rw [if_pos hctx]
        split
        · rename_i p hp
          rw [hps] at hp
          exact absurd hp (by simp)
        · exact Or.inl ⟨PyVal.none, rfl⟩
      · rw [if_neg hctx]
        cases ht : getFieldTry ctx.value (splitFirstDot path).1
            (splitFirstDot path).2 with
        | ok v =>
          exact Or.inl ⟨v, rfl⟩
        | error e =>
          rcases getFieldTry_error_catchable_or_value _ _ _ _ ht with hc | hv
          · exact Or.inl ⟨PyVal.none, by simp [hc]⟩
          · subst hv
            exact Or.inr (by simp [isCaughtByGetField])
    refine ⟨?_, hat⟩
    intro path
    rw [getFieldValueFromContextE]
    by_cases hstep : ctx.is_step = true
    · rw [if_pos hstep]
      by_cases hroot : strStartsWith path "<root>." = true
      · rw [if_pos hroot]
        split
        · rename_i p hp
          rw [hps] at hp
          exact absurd hp (by simp)
        · exact hat _
      · rw [if_neg hroot]
        exact hat path
    · rw [if_neg hstep]
      split
      · rename_i p hp
        rw [hps] at hp
        exact absurd hp (by simp)
      · exact Or.inl ⟨PyVal.none, rfl⟩
  | succ n ih =>
    intro ctx hd
    have hat : ∀ path, (∃ r, getFieldAtStep path ctx = .ok r)
        ∨ getFieldAtStep path ctx = .error PyErr.valueError := by
      intro path
      rw [getFieldAtStep]
      by_cases hctx : (splitFirstDot path).1 = "<context>"
      · rw [if_pos hctx]
        split
        · rename_i p hp
          have hdp := Ctx.depth_parent_step ctx p hp
          exact (ih p (by omega)).1 _
        · exact Or.inl ⟨PyVal.none, rfl⟩
      · rw [if_neg hctx]
        cases ht : getFieldTry ctx.value (splitFirstDot path).1
            (splitFirstDot path).2 with
        | ok v =>
          exact Or.inl ⟨v, rfl⟩
        | error e =>
          rcases getFieldTry_error_catchable_or_value _ _ _ _ ht with hc | hv
          · exact Or.inl ⟨PyVal.none, by simp [hc]⟩
          · subst hv
            exact Or.inr (by simp [isCaughtByGetField])
    refine ⟨?_, hat⟩
    intro path
    rw [getFieldValueFromContextE]
    by_cases hstep : ctx.is_step = true
    · rw [if_pos hstep]
      by_cases hroot : strStartsWith path "<root>." = true
      · rw [if_pos hroot]
        split
        · rename_i p hp
          have hdp := Ctx.depth_parent_step ctx p hp
          exact (ih p (by omega)).1 _
        · exact hat _
      · rw [if_neg hroot]
        exact hat path
    · rw [if_neg hstep]
      split
      · rename_i p hp
        have hdp := Ctx.depth_parent_step ctx p hp
        exact (ih p (by omega)).1 _
      · exact Or.inl ⟨PyVal.none, rfl⟩

/-- **C5** (counterexample to the claim as stated): resolution can
raise.  The segment `"²"` passes `isdigit`, so the source converts it
with `int`, which raises a `ValueError` that the
`except (IndexError, AttributeError, KeyError, TypeError)` clause does
not catch; on a list-valued step context the exception escapes the
resolver. -/
theorem field_resolution_value_error_escapes :
    pyIsDigit "²" = true
    ∧ getFieldValueFromContextE "²"
        (Ctx.make (.list [.int 7]) Option.none true)
      = .error PyErr.valueError
    ∧ isCaughtByGetField PyErr.valueError = false := by
  refine ⟨by decide, ?_, by decide⟩
  rw [getFieldValueFromContextE]
  rw [show (Ctx.make (.list [.int 7]) Option.none true).is_step = true
    from rfl]
  simp only [if_true]
  rw [show strStartsWith "²" "<root>." = false from by decide]
  simp only [Bool.false_eq_true, if_false]
  rw [getFieldAtStep]
  rw [if_neg (show ¬((splitFirstDot "²").1 = "<context>")
    from by decide)]
  rfl

/-- **C5** (amended): the value traversal only ever produces the four
exception kinds of the source's `except` clause or a `ValueError`; a
`ValueError` arises exactly from `int()` on a segment `isdigit` admits
without a decimal conversion, and it escapes the resolver uncaught;
every other resolution returns a value, and a `<context>` head beyond
the available ancestor depth resolves to `None` instead of failing. -/
theorem field_resolution_uncaught_only_value_error :
    (∀ (fields : List String) (v : PyVal) (e : PyErr),
        resolveFields v fields = .error e →
          isCaughtByGetField e = true ∨ e = PyErr.valueError)
    ∧ (∀ (fields : List String) (v : PyVal),
        resolveFields v fields = .error PyErr.valueError →
          ∃ field, field ∈ fields ∧ pyIsDigit field = true ∧
            pyIntOfDigits field = .error PyErr.valueError)
    ∧ (∀ (path : String) (ctx : Ctx),
        (∃ r, getFieldValueFromContextE path ctx = .ok r
            ∧ get_field_value_from_context path ctx = r)
        ∨ getFieldValueFromContextE path ctx = .error PyErr.valueError)
    ∧ (∀ (path : String) (ctx : Ctx),
        ctx.is_step = true → ctx.parent_step = Option.none →
        (splitFirstDot path).1 = "<context>" →
        strStartsWith path "<root>." = false →
        get_field_value_from_context path ctx = PyVal.none) := by
  refine ⟨resolveFields_error_catchable_or_value,
    resolveFields_value_error_from_digit, ?_, ?_⟩
  · intro path ctx
    rcases (getFieldE_ok_or_value ctx.depth ctx (Nat.le_refl _)).1 path
      with ⟨r, hr⟩ | hv
    · exact Or.inl ⟨r, hr, by rw [get_field_value_from_context, hr]⟩
    · exact Or.inr hv
  · intro path ctx hstep hps hctx hroot
    rw [get_field_value_from_context, getFieldValueFromContextE]
    rw [if_pos hstep, hroot]
    simp only [Bool.false_eq_true, if_false]
    rw [getFieldAtStep]
    rw [if_pos hctx, hps]

/-- Witness for the amended C5: a `<context>` walk past the outermost
step context resolves to `None`. -/
theorem field_resolution_uncaught_only_value_error_witness :
    (Ctx.make (.dict [("x", .int 5)]) Option.none true).is_step = true
    ∧ (Ctx.make (.dict [("x", .int 5)]) Option.none true).parent_step
        = Option.none
    ∧ get_field_value_from_context "<context>.x"
        (Ctx.make (.dict [("x", .int 5)]) Option.none true) = PyVal.none := by
  refine ⟨rfl, Ctx.parent_step_parent_none
    (Ctx.make (.dict [("x", .int 5)]) Option.none true) rfl, ?_⟩
  exact field_resolution_uncaught_only_value_error.2.2.2 "<context>.x"
    (Ctx.make (.dict [("x", .int 5)]) Option.none true) rfl
    (Ctx.parent_step_parent_none _ rfl) (by decide) (by decide)

/-! ## IfField guard semantics (C6) -/

/-- C6: for an `IfField` with `run_if_none=false`: a `None` field value
satisfies the conditional vacuously (no errors, neither the field
validator nor the target runs); a configured field validator rejecting
the resolved field value also satisfies it vacuously (the target never
runs); when the precondition holds — no field validator configured, or
the configured one accepting the resolved value — the target runs
against the original value and on its failure its errors merge into the
current context, followed by the `needsValidate` info error when
`add_check_info` is set. -/
theorem ifField_guard_semantics (fname : String) (add_check_info : Bool)
    (fvOpt : Option Validator) (target : Validator) (value : PyVal)
    (parent_ctx : Option Ctx) :
    (get_field_value_from_context fname
        ((Validator.ifField fname false add_check_info fvOpt
          target).buildContext value parent_ctx) = PyVal.none →
      (isValid (Validator.ifField fname false add_check_info fvOpt target)
          value parent_ctx).1.error_messages = []
      ∧ (isValid (Validator.ifField fname false add_check_info fvOpt target)
          value parent_ctx).2
        = [(Validator.ifField fname false add_check_info fvOpt target,
            value)])
    ∧ (∀ fv, fvOpt = some fv →
      get_field_value_from_context fname
          ((Validator.ifField fname false add_check_info fvOpt
            target).buildContext value parent_ctx) ≠ PyVal.none →
      (isValid fv
          (get_field_value_from_context fname
            ((Validator.ifField fname false add_check_info fvOpt
              target).buildContext value parent_ctx))
          (some ((Validator.ifField fname false add_check_info fvOpt
            target).buildContext value parent_ctx))).1.toBool = false →
      (isValid (Validator.ifField fname false add_check_info fvOpt target)
          value parent_ctx).1.error_messages = []
      ∧ (isValid (Validator.ifField fname false add_check_info fvOpt target)
          value parent_ctx).2
        = (Validator.ifField fname false add_check_info fvOpt target, value)
            :: (isValid fv
                (get_field_value_from_context fname
                  ((Validator.ifField fname false add_check_info fvOpt
                    target).buildContext value parent_ctx))
                (some ((Validator.ifField fname false add_check_info fvOpt
                  target).buildContext value parent_ctx))).2)
    ∧ (fvOpt = Option.none →
      get_field_value_from_context fname
          ((Validator.ifField fname false add_check_info fvOpt
            target).buildContext value parent_ctx) ≠ PyVal.none →
      (isValid (Validator.ifField fname false add_check_info fvOpt target)
          value parent_ctx).1.error_messages
        = (if (isValid target value
              (some ((Validator.ifField fname false add_check_info fvOpt
                target).buildContext value parent_ctx))).1.toBool = false
          then
            (isValid target value
              (some ((Validator.ifField fname false add_check_info fvOpt
                target).buildContext value parent_ctx))).1.error_messages
            ++ (if add_check_info then
                [(((Validator.ifField fname false add_check_info fvOpt
                      target).buildContext value
                    parent_ctx).import_errors
                    (isValid target value
                      (some ((Validator.ifField fname false add_check_info
                        fvOpt target).buildContext value
                        parent_ctx))).1).errorRecord "needsValidate"
                  "Some validate error due to field '$field_name' has value '$field_value'."
                  [("field_value",
                    get_field_value_from_context fname
                      ((Validator.ifField fname false add_check_info fvOpt
                        target).buildContext value parent_ctx))]]
              else [])
          else [])
      ∧ (isValid (Validator.ifField fname false add_check_info fvOpt target)
          value parent_ctx).2
        = (Validator.ifField fname false add_check_info fvOpt target, value)
            :: (isValid target value
                (some ((Validator.ifField fname false add_check_info fvOpt
                  target).buildContext value parent_ctx))).2)
    ∧ (∀ fv, fvOpt = some fv →
      get_field_value_from_context fname
          ((Validator.ifField fname false add_check_info fvOpt
            target).buildContext value parent_ctx) ≠ PyVal.none →
      (isValid fv
          (get_field_value_from_context fname
            ((Validator.ifField fname false add_check_info fvOpt
              target).buildContext value parent_ctx))
          (some ((Validator.ifField fname false add_check_info fvOpt
            target).buildContext value parent_ctx))).1.toBool = true →
      (isValid (Validator.ifField fname false add_check_info fvOpt target)
          value parent_ctx).1.error_messages
        = (if (isValid target value
              (some ((Validator.ifField fname false add_check_info fvOpt
                target).buildContext value parent_ctx))).1.toBool = false
          then
            (isValid target value
              (some ((Validator.ifField fname false add_check_info fvOpt
                target).buildContext value parent_ctx))).1.error_messages
            ++ (if add_check_info then
                [(((Validator.ifField fname false add_check_info fvOpt
                      target).buildContext value
                    parent_ctx).import_errors
                    (isValid target value
                      (some ((Validator.ifField fname false add_check_info
                        fvOpt target).buildContext value
                        parent_ctx))).1).errorRecord "needsValidate"
                  "Some validate error due to field '$field_name' has value '$field_value'."
                  [("field_value",
                    get_field_value_from_context fname
                      ((Validator.ifField fname false add_check_info fvOpt
                        target).buildContext value parent_ctx))]]
              else [])
          else [])
      ∧ (isValid (Validator.ifField fname false add_check_info fvOpt target)
          value parent_ctx).2
        = (Validator.ifField fname false add_check_info fvOpt target, value)
            :: ((isValid fv
                (get_field_value_from_context fname
                  ((Validator.ifField fname false add_check_info fvOpt
                    target).buildContext value parent_ctx))
                (some ((Validator.ifField fname false add_check_info fvOpt
                  target).buildContext value parent_ctx))).2
              ++ (isValid target value
                  (some ((Validator.ifField fname false add_check_info fvOpt
                    target).buildContext value parent_ctx))).2)) := by
  refine ⟨?_, ?_, ?_, ?_⟩
  · intro hnull
    cases fvOpt with
    | none =>
      rw [isValid, internalIsValid]
      rw [if_pos (by simp [hnull])]
      simp [buildContext_error_messages]
    | some fv =>
      rw [isValid, internalIsValid]
      rw [if_pos (by simp [hnull])]
      simp [buildContext_error_messages]
  · intro fv hfv hnn hrej
    subst hfv
    rw [isValid, internalIsValid]
    rw [if_neg (by simp [hnn])]
    rw [if_pos hrej]
    simp [buildContext_error_messages]
  · intro hfv hnn
    subst hfv
    rw [isValid, internalIsValid]
    rw [if_neg (by simp [hnn])]
    rw [ifFieldRunTarget]
    by_cases htf : (isValid target value
        (some ((Validator.ifField fname false add_check_info Option.none
          target).buildContext value parent_ctx))).1.toBool = false
    · rw [if_pos htf]
      dsimp only
      constructor
      · rw [if_pos htf]
        by_cases haci : add_check_info = true
        · rw [if_pos haci, if_pos haci]
          rw [Ctx.error_messages_error, Ctx.import_errors_spec,
            buildContext_error_messages, map_copy_as_child_none]
          simp
        · rw [if_neg haci, if_neg haci]
          rw [Ctx.import_errors_spec, buildContext_error_messages,
            map_copy_as_child_none]
          simp
      · rfl
    · rw [if_neg htf]
      constructor
      · rw [if_neg htf]
        exact buildContext_error_messages _ _ _
      · rfl
  · intro fv hfv hnn hacc
    subst hfv
    rw [isValid, internalIsValid]
    rw [if_neg (by simp [hnn])]
    rw [if_neg (by simp [hacc])]
    rw [ifFieldRunTarget]
    by_cases htf : (isValid target value
        (some ((Validator.ifField fname false add_check_info (some fv)
          target).buildContext value parent_ctx))).1.toBool = false
    · rw [if_pos htf]
      dsimp only
      constructor
      · rw [if_pos htf]
        by_cases haci : add_check_info = true
        · rw [if_pos haci, if_pos haci]
          rw [Ctx.error_messages_error, Ctx.import_errors_spec,
            buildContext_error_messages, map_copy_as_child_none]
          simp
        · rw [if_neg haci, if_neg haci]
          rw [Ctx.import_errors_spec, buildContext_error_messages,
            map_copy_as_child_none]
          simp
      · rfl
    · rw [if_neg htf]
      constructor
      · rw [if_neg htf]
        exact buildContext_error_messages _ _ _
      · rfl

/-- Witness for C6: with no resolvable field (`run_if_none=false`) the
conditional on value `"a"` succeeds with no errors and only its own
invocation in the trace. -/
theorem ifField_guard_semantics_witness :
    get_field_value_from_context "x"
        ((Validator.ifField "x" false true Option.none
          (Validator.length 4 6)).buildContext (.str "a") Option.none)
      = PyVal.none
    ∧ (isValid (Validator.ifField "x" false true Option.none
          (Validator.length 4 6)) (.str "a")
        Option.none).1.error_messages = []
    ∧ (isValid (Validator.ifField "x" false true Option.none
          (Validator.length 4 6)) (.str "a") Option.none).2
      = [(Validator.ifField "x" false true Option.none
          (Validator.length 4 6), PyVal.str "a")] := by
  have hnull : get_field_value_from_context "x"
      ((Validator.ifField "x" false true Option.none
        (Validator.length 4 6)).buildContext (.str "a") Option.none)
      = PyVal.none := by
    rw [get_field_value_from_context, getFieldValueFromContextE]
    rw [show ((Validator.ifField "x" false true Option.none
        (Validator.length 4 6)).buildContext (.str "a")
        Option.none).is_step = true from rfl]
    simp only [if_true]
    rw [show strStartsWith "x" "<root>." = false from by decide]
    simp only [Bool.false_eq_true, if_false]
    rw [getFieldAtStep]
    rw [if_neg (show ¬((splitFirstDot "x").1 = "<context>") from by decide)]
    rfl
  have hres := (ifField_guard_semantics "x" true Option.none
    (Validator.length 4 6) (.str "a") Option.none).1 hnull
  exact ⟨hnull, hres.1, hres.2⟩

/-! ## Legacy export lemmas (C8) -/

theorem assocGet_assocSet_self {κ α : Type} [DecidableEq κ]
    (m : List (κ × α)) (k : κ) (v : α) :
    assocGet (assocSet m k v) k = some v := by
  induction m with
  | nil => simp [assocSet, assocGet]
  | cons p rest ih =>
    obtain ⟨k', v'⟩ := p
    rw [assocSet]
    by_cases h : k' = k
    · rw [if_pos h, assocGet, if_pos h]
    · rw [if_neg h, assocGet, if_neg h]
      exact ih

theorem assocGet_assocSet_ne {κ α : Type} [DecidableEq κ]
    (m : List (κ × α)) (k : κ) (v : α) (k' : κ) (h : k' ≠ k) :
    assocGet (assocSet m k v) k' = assocGet m k' := by
  induction m with
  | nil =>
    simp only [assocSet, assocGet]
    rw [if_neg (fun hk => h hk.symm)]
  | cons p rest ih =>
    obtain ⟨k0, v0⟩ := p
    rw [assocSet]
    by_cases h0 : k0 = k
    · rw [if_pos h0, assocGet, assocGet]
      rw [if_neg (fun hk => h (hk.symm.trans h0)),
        if_neg (fun hk => h (hk.symm.trans h0))]
    · rw [if_neg h0, assocGet, assocGet]
      by_cases h1 : k0 = k'
      · rw [if_pos h1, if_pos h1]
      · rw [if_neg h1, if_neg h1]
        exact ih

theorem assocGet_eq_none_of_not_mem {κ α : Type} [DecidableEq κ]
    (m : List (κ × α)) (k : κ) (h : k ∉ m.map Prod.fst) :
    assocGet m k = Option.none := by
  induction m with
  | nil => rfl
  | cons p rest ih =>
    obtain ⟨k0, v0⟩ := p
    simp only [List.map_cons, List.mem_cons] at h
    push_neg at h
    rw [assocGet, if_neg (fun hk => h.1 hk.symm)]
    exact ih h.2

theorem map_fst_assocSet_of_mem {κ α : Type} [DecidableEq κ]
    (m : List (κ × α)) (k : κ) (v : α) (h : k ∈ m.map Prod.fst) :
    (assocSet m k v).map Prod.fst = m.map Prod.fst := by
  induction m with
  | nil => simp at h
  | cons p rest ih =>
    obtain ⟨k0, v0⟩ := p
    rw [assocSet]
    by_cases h0 : k0 = k
    · rw [if_pos h0]
      simp
    · rw [if_neg h0]
      simp only [List.map_cons, List.mem_cons] at h ⊢
      rcases h with h | h
      · exact absurd h.symm h0
      · rw [ih h]

theorem assocGet_append_single {κ α : Type} [DecidableEq κ]
    (m : List (κ × α)) (p : κ) (v : α) (k : κ) :
    assocGet (m ++ [(p, v)]) k
      = (match assocGet m k with
        | some w => some w
        | Option.none => if p = k then some v else Option.none) := by
  induction m with
  | nil =>
    simp only [List.nil_append, assocGet]
  | cons q rest ih =>
    obtain ⟨k0, v0⟩ := q
    rw [List.cons_append, assocGet, assocGet]
    by_cases h0 : k0 = k
    · rw [if_pos h0, if_pos h0]
    · rw [if_neg h0, if_neg h0]
      exact ih

theorem assocGet_isSome_of_mem {κ α : Type} [DecidableEq κ]
    (m : List (κ × α)) (k : κ) (h : k ∈ m.map Prod.fst) :
    (assocGet m k).isSome = true := by
  induction m with
  | nil => simp at h
  | cons p rest ih =>
    obtain ⟨k0, v0⟩ := p
    rw [assocGet]
    by_cases h0 : k0 = k
    · rw [if_pos h0]; rfl
    · rw [if_neg h0]
      simp only [List.map_cons, List.mem_cons] at h
      rcases h with h | h
      · exact absurd h.symm h0
      · exact ih h

theorem mem_map_fst_of_assocGet_some {κ α : Type} [DecidableEq κ]
    (m : List (κ × α)) (k : κ) (v : α) (h : assocGet m k = some v) :
    k ∈ m.map Prod.fst := by
  induction m with
  | nil => simp [assocGet] at h
  | cons p rest ih =>
    obtain ⟨k0, v0⟩ := p
    rw [assocGet] at h
    by_cases h0 : k0 = k
    · simp [h0]
    · rw [if_neg h0] at h
      simp [ih h]

/-- Lookup through the grouping loop: the group of a path is the
accumulator's group extended by the matching errors, created on first
need. -/
theorem groupByPathGo_get (errs : List ValidationErrorMessage)
    (acc : List (Option String × List ValidationErrorMessage))
    (path : Option String) :
    assocGet (groupByPathGo acc errs) path
      = (match assocGet acc path with
        | some ms =>
          some (ms ++ errs.filter (fun e => e.field_path = path))
        | Option.none =>
          if errs.filter (fun e => e.field_path = path) = [] then Option.none
          else some (errs.filter (fun e => e.field_path = path))) := by
  induction errs generalizing acc with
  | nil =>
    rw [groupByPathGo]
    cases h : assocGet acc path with
    | some ms => simp
    | none => simp
  | cons e rest ih =>
    by_cases hp : e.field_path = path
    · subst hp
      cases hg : assocGet acc e.field_path with
      | some ms =>
        rw [groupByPathGo, hg, ih, assocGet_assocSet_self]
        simp [List.filter_cons, List.append_assoc]
      | none =>
        rw [groupByPathGo, hg, ih, assocGet_append_single, hg]
        simp [List.filter_cons]
    · cases hg : assocGet acc e.field_path with
      | some ms =>
        rw [groupByPathGo, hg, ih,
          assocGet_assocSet_ne _ _ _ _ (fun hh => hp hh.symm)]
        cases h2 : assocGet acc path with
        | some w => simp [List.filter_cons, hp]
        | none => simp [List.filter_cons, hp]
      | none =>
        rw [groupByPathGo, hg, ih, assocGet_append_single]
        cases h2 : assocGet acc path with
        | some w => simp [List.filter_cons, hp]
        | none => simp [List.filter_cons, hp]

/-- Lookup in the grouped errors: the group of a path is exactly the
filter of the error list on that path, present iff non-empty. -/
theorem groupByPath_get (errs : List ValidationErrorMessage)
    (path : Option String) :
    assocGet (groupByPath errs) path
      = (if errs.filter (fun e => e.field_path = path) = [] then Option.none
        else some (errs.filter (fun e => e.field_path = path))) := by
  rw [groupByPath, groupByPathGo_get]
  simp [assocGet]

theorem groupByPathGo_keys_nodup (errs : List ValidationErrorMessage)
    (acc : List (Option String × List ValidationErrorMessage))
    (hnd : (acc.map Prod.fst).Nodup) :
    ((groupByPathGo acc errs).map Prod.fst).Nodup := by
  induction errs generalizing acc with
  | nil => rw [groupByPathGo]; exact hnd
  | cons e rest ih =>
    cases hg : assocGet acc e.field_path with
    | some ms =>
      rw [groupByPathGo, hg]
      refine ih _ ?_
      rw [map_fst_assocSet_of_mem _ _ _
        (mem_map_fst_of_assocGet_some _ _ _ hg)]
      exact hnd
    | none =>
      rw [groupByPathGo, hg]
      refine ih _ ?_
      rw [List.map_append]
      refine List.Nodup.append hnd (List.nodup_singleton _) ?_
      intro a ha hb
      have hae : a = e.field_path := by simpa using hb
      subst hae
      have hs := assocGet_isSome_of_mem acc _ ha
      rw [hg] at hs
      simp at hs

/-- The grouped dict binds every path at most once. -/
theorem groupByPath_keys_nodup (errs : List ValidationErrorMessage) :
    ((groupByPath errs).map Prod.fst).Nodup := by
  rw [groupByPath]
  exact groupByPathGo_keys_nodup errs [] (by simp)

/-- On an association list with pairwise-distinct keys, searching the
reversed list for a key finds exactly the `assocGet` binding. -/
theorem find_reverse_of_nodup {κ α : Type} [DecidableEq κ]
    (m : List (κ × α)) (hnd : (m.map Prod.fst).Nodup) (k : κ) :
    m.reverse.find? (fun p => p.1 = k)
      = (assocGet m k).map (fun v => (k, v)) := by
  induction m with
  | nil => rfl
  | cons q rest ih =>
    obtain ⟨k0, v0⟩ := q
    simp only [List.map_cons, List.nodup_cons] at hnd
    rw [List.reverse_cons, List.find?_append, ih hnd.2, assocGet]
    by_cases h0 : k0 = k
    · subst h0
      rw [assocGet_eq_none_of_not_mem rest k0 hnd.1]
      simp [List.find?]
    · rw [if_neg h0]
      cases ha : assocGet rest k with
      | some w => simp
      | none => simp [List.find?, h0]

/-- Lookup through the root-entry loop: the last root error with the
code wins, otherwise the accumulator answers. -/
theorem legacyRootGo_get (ms : List ValidationErrorMessage)
    (acc : List (String × LegacyVal)) (k : String) :
    assocGet (legacyRootGo acc ms) k
      = (match ms.reverse.find? (fun m => m.code = k) with
        | some m => some (LegacyVal.msg m.msg)
        | Option.none => assocGet acc k) := by
  induction ms generalizing acc with
  | nil => rfl
  | cons m rest ih =>
    rw [legacyRootGo, ih, List.reverse_cons, List.find?_append]
    cases hf : rest.reverse.find? (fun m => m.code = k) with
    | some y => rfl
    | none =>
      by_cases hk : m.code = k
      · subst hk
        simp [List.find?, assocGet_assocSet_self]
      · simp [List.find?, hk,
          assocGet_assocSet_ne _ _ _ _ (fun hh => hk hh.symm)]

/-- Lookup through a code-to-message comprehension: the last error with
the code wins. -/
theorem codeMsgGo_get (ms : List ValidationErrorMessage)
    (acc : List (String × String)) (k : String) :
    assocGet (codeMsgGo acc ms) k
      = (match ms.reverse.find? (fun m => m.code = k) with
        | some m => some m.msg
        | Option.none => assocGet acc k) := by
  induction ms generalizing acc with
  | nil => rfl
  | cons m rest ih =>
    rw [codeMsgGo, ih, List.reverse_cons, List.find?_append]
    cases hf : rest.reverse.find? (fun m => m.code = k) with
    | some y => rfl
    | none =>
      by_cases hk : m.code = k
      · subst hk
        simp [List.find?, assocGet_assocSet_self]
      · simp [List.find?, hk,
          assocGet_assocSet_ne _ _ _ _ (fun hh => hk hh.symm)]

/-- Lookup through the per-field loop: the last group keyed by the path
wins, otherwise the root mapping underneath answers. -/
theorem legacyFieldsGo_get
    (groups : List (Option String × List ValidationErrorMessage))
    (acc : List (String × LegacyVal)) (k : String) :
    assocGet (legacyFieldsGo acc groups) k
      = (match groups.reverse.find? (fun p => p.1 = some k) with
        | some p => some (LegacyVal.sub (codeMsgMap p.2))
        | Option.none => assocGet acc k) := by
  induction groups generalizing acc with
  | nil => rfl
  | cons q rest ih =>
    obtain ⟨op, ms⟩ := q
    cases op with
    | none =>
      rw [legacyFieldsGo, ih, List.reverse_cons, List.find?_append]
      cases hf : rest.reverse.find? (fun p => p.1 = some k) with
      | some y => rfl
      | none => simp [List.find?]
    | some f =>
      rw [legacyFieldsGo, ih, List.reverse_cons, List.find?_append]
      cases hf : rest.reverse.find? (fun p => p.1 = some k) with
      | some y => rfl
      | none =>
        by_cases hk : f = k
        · subst hk
          simp [List.find?, assocGet_assocSet_self]
        · simp [List.find?, hk,
            assocGet_assocSet_ne _ _ _ _ (fun hh => hk hh.symm)]

/-- Lookup in the legacy export: a key that is some error's field path
answers with that field's code-to-message sub-mapping; otherwise it
answers with the rendered message of the last root error carrying the
key as its code. -/
theorem legacy_message_get (ctx : Ctx) (k : String) :
    assocGet (from_context_to_legacy_message ctx) k
      = (if ctx.error_messages.filter (fun e => e.field_path = some k) = [] then
          (lastMsgAt ctx.error_messages Option.none k).map LegacyVal.msg
        else
          some (LegacyVal.sub (codeMsgMap
            (ctx.error_messages.filter (fun e => e.field_path = some k))))) := by
  have hroot : ((assocGet (groupByPath ctx.error_messages) Option.none).getD [])
      = ctx.error_messages.filter (fun e => e.field_path = Option.none) := by
    rw [groupByPath_get]
    by_cases hN : ctx.error_messages.filter
        (fun e => e.field_path = Option.none) = []
    · rw [if_pos hN, hN]; rfl
    · rw [if_neg hN]; rfl
  rw [from_context_to_legacy_message, legacyFieldsGo_get,
    find_reverse_of_nodup _ (groupByPath_keys_nodup ctx.error_messages) (some k),
    groupByPath_get ctx.error_messages (some k), hroot, legacyRootGo_get]
  by_cases hK : ctx.error_messages.filter (fun e => e.field_path = some k) = []
  · rw [if_pos hK, if_pos hK]
    cases hf : (ctx.error_messages.filter
        (fun e => e.field_path = Option.none)).reverse.find?
        (fun m => m.code = k) with
    | some m => simp [lastMsgAt, hf]
    | none => simp [lastMsgAt, hf, assocGet]
  · rw [if_neg hK, if_neg hK]
    simp

/-- **C8** (counterexample to the claim as stated): in `legacyClashCtx`
the root error `x` does not appear as a top-level code-to-message entry
of the legacy export — the dict union lets the field group of path `"x"`
overwrite it, so the key `"x"` maps to a sub-mapping instead of the
rendered root message. -/
theorem legacy_root_entry_clobbered :
    (∃ e ∈ legacyClashCtx.error_messages,
      e.field_path = Option.none ∧ e.code = "x" ∧ e.msg = "m1") ∧
    assocGet (from_context_to_legacy_message legacyClashCtx) "x"
      = some (LegacyVal.sub [("y", "m2")]) := by
  decide

/-- **C8** (amended): provided no null-path error's code equals the
field path of any error, the legacy export maps each null-path error's
code to the rendered message of the last null-path error with that code,
and maps each non-null field path to the code-to-message sub-mapping of
the errors at that path, where again the last error with a given code
wins — so errors sharing code and path beyond the last are discarded. -/
theorem legacy_export_shape (ctx : Ctx)
    (hcol : ∀ e1 ∈ ctx.error_messages, e1.field_path = Option.none →
      ∀ e2 ∈ ctx.error_messages, e2.field_path ≠ some e1.code) :
    (∀ e ∈ ctx.error_messages, e.field_path = Option.none →
      ∃ m, lastMsgAt ctx.error_messages Option.none e.code = some m ∧
        assocGet (from_context_to_legacy_message ctx) e.code
          = some (LegacyVal.msg m)) ∧
    (∀ e ∈ ctx.error_messages, ∀ p, e.field_path = some p →
      assocGet (from_context_to_legacy_message ctx) p
        = some (LegacyVal.sub (codeMsgMap
            (ctx.error_messages.filter (fun x => x.field_path = some p)))) ∧
      ∃ m, lastMsgAt ctx.error_messages (some p) e.code = some m ∧
        assocGet (codeMsgMap
            (ctx.error_messages.filter (fun x => x.field_path = some p)))
          e.code = some m) := by
  constructor
  · intro e he hpath
    have hK : ctx.error_messages.filter
        (fun x => x.field_path = some e.code) = [] := by
      rw [List.filter_eq_nil]
      intro x hx
      simpa using hcol e he hpath x hx
    have hmain := legacy_message_get ctx e.code
    rw [if_pos hK] at hmain
    have hmem : e ∈ ctx.error_messages.filter
        (fun x => x.field_path = Option.none) :=
      List.mem_filter.mpr ⟨he, by simp [hpath]⟩
    have hfind : ∃ m', (ctx.error_messages.filter
        (fun x => x.field_path = Option.none)).reverse.find?
        (fun x => x.code = e.code) = some m' := by
      cases hf : (ctx.error_messages.filter
          (fun x => x.field_path = Option.none)).reverse.find?
          (fun x => x.code = e.code) with
      | some m' => exact ⟨m', rfl⟩
      | none =>
        have hall := List.find?_eq_none.mp hf e (List.mem_reverse.mpr hmem)
        simp at hall
    obtain ⟨m', hm'⟩ := hfind
    refine ⟨m'.msg, ?_, ?_⟩
    · simp only [lastMsgAt]
      rw [hm']
      rfl
    · rw [hmain]
      simp only [lastMsgAt]
      rw [hm']
      rfl
  · intro e he p hp
    have hK : ctx.error_messages.filter
        (fun x => x.field_path = some p) ≠ [] := by
      intro h0
      have hme := List.filter_eq_nil.mp h0 e he
      simp [hp] at hme
    have hmain := legacy_message_get ctx p
    rw [if_neg hK] at hmain
    refine ⟨hmain, ?_⟩
    have hmem : e ∈ ctx.error_messages.filter
        (fun x => x.field_path = some p) :=
      List.mem_filter.mpr ⟨he, by simp [hp]⟩
    have hfind : ∃ m', (ctx.error_messages.filter
        (fun x => x.field_path = some p)).reverse.find?
        (fun x => x.code = e.code) = some m' := by
      cases hf : (ctx.error_messages.filter
          (fun x => x.field_path = some p)).reverse.find?
          (fun x => x.code = e.code) with
      | some m' => exact ⟨m', rfl⟩
      | none =>
        have hall := List.find?_eq_none.mp hf e (List.mem_reverse.mpr hmem)
        simp at hall
    obtain ⟨m', hm'⟩ := hfind
    refine ⟨m'.msg, ?_, ?_⟩
    · simp only [lastMsgAt]
      rw [hm']
      rfl
    · rw [codeMsgMap, codeMsgGo_get, hm']

/-- Witness: the amended C8 statement applied to the concrete
`legacyDemoCtx`, whose errors satisfy the no-collision proviso. -/
theorem legacy_export_shape_witness :
    (∀ e ∈ legacyDemoCtx.error_messages, e.field_path = Option.none →
      ∃ m, lastMsgAt legacyDemoCtx.error_messages Option.none e.code = some m ∧
        assocGet (from_context_to_legacy_message legacyDemoCtx) e.code
          = some (LegacyVal.msg m)) ∧
    (∀ e ∈ legacyDemoCtx.error_messages, ∀ p, e.field_path = some p →
      assocGet (from_context_to_legacy_message legacyDemoCtx) p
        = some (LegacyVal.sub (codeMsgMap
            (legacyDemoCtx.error_messages.filter
              (fun x => x.field_path = some p)))) ∧
      ∃ m, lastMsgAt legacyDemoCtx.error_messages (some p) e.code = some m ∧
        assocGet (codeMsgMap
            (legacyDemoCtx.error_messages.filter
              (fun x => x.field_path = some p)))
          e.code = some m) :=
  legacy_export_shape legacyDemoCtx (by decide)

end DirtyValidators
